import Mathlib

/-!
# freecusd monitor-support runtime (`lib.c`, `conf.c`)

A shallow embedding of the helper routines every freecusd monitor thread uses:
buffer growth, the deadline clock, the timed read and the read-all loop, the
child-process executor, the status publisher and the disk-letter lookup.

Conventions of the embedding

* `size_t` is the 64-bit unsigned type of the Linux LP64 target; every
  `size_t` operation of the source is written with its wrap-around
  (`% SIZE_MOD`).
* `time_t` and `long` (the fields of `struct timespec`) are signed; C leaves
  their overflow undefined, so they are integers here.
* Bytes and characters are natural numbers (their code).
* A pointer to a heap block is `Option (List Nat)`: `none` is `NULL`, and
  `some bs` is a block holding the bytes `bs`.
* The operating system and the collaborators that live outside `lib.c`
  (clock, `ppoll`, `read`, `realloc`, the reaper, the alert subsystem) are
  scripted: their outcomes are inputs, the requests made to them are outputs.
-/

namespace Freecusd

/-! ## Machine integers -/

/-- Number of values of `size_t` (`SIZE_MAX + 1`). -/
def SIZE_MOD : Nat := 2 ^ 64

/-- Sum of two `size_t` values. -/
def size_add (a b : Nat) : Nat := (a + b) % SIZE_MOD

/-- Difference of two `size_t` values. -/
def size_sub (a b : Nat) : Nat := (a + SIZE_MOD - b % SIZE_MOD) % SIZE_MOD

/-- Product of two `size_t` values. -/
def size_mul (a b : Nat) : Nat := (a * b) % SIZE_MOD

/-! ## Buffer growth (`fcd_lib_grow_buf`) -/

/-- The chunk size: `#define FCD_LIB_BUF_CHUNK 2000`. -/
def FCD_LIB_BUF_CHUNK : Nat := 2000

/-- Block returned by a successful `realloc(old, n)`: `n` bytes, the first
`min n (old size)` of them those of the old block, the others whatever the
allocator left there (`fresh`). -/
def realloc (fresh : Nat → Nat) (old : Option (List Nat)) (n : Nat) : List Nat :=
  (List.range n).map (fun i => ((old.getD []).get? i).getD (fresh i))

/-- The variables `*buf` and `*buf_size` of the caller. -/
structure InBuf where
  buf : Option (List Nat)
  buf_size : Nat

/-- The value `max_size` holds after
`max_size = ((max_size + FCD_LIB_BUF_CHUNK - 1) / FCD_LIB_BUF_CHUNK) * FCD_LIB_BUF_CHUNK`. -/
def fcd_lib_grow_buf_cap (max_size : Nat) : Nat :=
  size_mul (size_sub (size_add max_size FCD_LIB_BUF_CHUNK) 1 / FCD_LIB_BUF_CHUNK)
    FCD_LIB_BUF_CHUNK

/-- The value of `new_size` in `fcd_lib_grow_buf`. -/
def fcd_lib_grow_buf_new_size (b : InBuf) : Nat :=
  if b.buf = none ∨ b.buf_size = 0 then FCD_LIB_BUF_CHUNK
  else size_add b.buf_size FCD_LIB_BUF_CHUNK

/-- The function `fcd_lib_grow_buf(buf, buf_size, max_size)`.  `alloc` is the outcome of the
`realloc` call, should it be made: `none` when it returns `NULL`, `some fresh`
when it succeeds.  Returns the return value and the caller's variables. -/
def fcd_lib_grow_buf (alloc : Option (Nat → Nat)) (b : InBuf) (max_size : Nat) :
    Int × InBuf :=
  let new_size := fcd_lib_grow_buf_new_size b
  let max_size := fcd_lib_grow_buf_cap max_size
  if new_size > max_size then (-4, b)
  else
    match alloc with
    | none => (-1, b)
    | some fresh => (0, { buf := some (realloc fresh b.buf new_size), buf_size := new_size })

/-! ## Deadline clock (`fcd_lib_deadline`, `fcd_lib_remaining`) -/

/-- The type `struct timespec`. -/
structure Timespec where
  tv_sec : Int
  tv_nsec : Int
  deriving DecidableEq, Repr

/-- The function `fcd_lib_deadline(deadline, timeout)`.  `clock` is the outcome of
`clock_gettime`: `none` when it fails, otherwise the reading.  The result is
`none` for the return value -1 and `some deadline` for 0. -/
def fcd_lib_deadline (clock : Option Timespec) (timeout : Timespec) : Option Timespec :=
  match clock with
  | none => none
  | some now =>
    let tv_sec := now.tv_sec + timeout.tv_sec
    let tv_nsec := now.tv_nsec + timeout.tv_nsec
    if tv_nsec ≥ 1000000000 then some ⟨tv_sec + 1, tv_nsec - 1000000000⟩
    else some ⟨tv_sec, tv_nsec⟩

/-- The function `fcd_lib_remaining(remaining, deadline)`, with the same conventions. -/
def fcd_lib_remaining (clock : Option Timespec) (deadline : Timespec) : Option Timespec :=
  match clock with
  | none => none
  | some now =>
    let tv_sec := deadline.tv_sec - now.tv_sec
    let tv_nsec := deadline.tv_nsec - now.tv_nsec
    let r : Timespec :=
      if tv_nsec < 0 then ⟨tv_sec - 1, tv_nsec + 1000000000⟩ else ⟨tv_sec, tv_nsec⟩
    if r.tv_sec < 0 then some ⟨0, 0⟩ else some r

/-- A `struct timespec` whose nanosecond field is in range. -/
def Timespec.Normalized (t : Timespec) : Prop := 0 ≤ t.tv_nsec ∧ t.tv_nsec < 1000000000

/-- The time a `struct timespec` denotes, in nanoseconds. -/
def Timespec.toNs (t : Timespec) : Int := t.tv_sec * 1000000000 + t.tv_nsec

/-- The normalized `struct timespec` denoting a number of nanoseconds. -/
def Timespec.ofNs (n : Int) : Timespec := ⟨n / 1000000000, n % 1000000000⟩

/-! ## Timed read (`fcd_lib_read`) -/

/-- Outcome of one `ppoll` call: -1 with `errno == EINTR`, -1 with another
`errno`, 0 (the timeout expired), or a positive count (the descriptor is
ready). -/
inductive PollResult where
  | eintr
  | error
  | expired
  | ready
  deriving DecidableEq, Repr

/-- Outcome of one `read` call: -1 with `errno` `EAGAIN` or `EWOULDBLOCK`, -1
with another `errno`, or a transfer in which the descriptor hands over at most
`more + 1` bytes. -/
inductive ReadResult where
  | eagain
  | error
  | deliver (more : Nat)
  deriving DecidableEq, Repr

/-- What the environment does during one iteration of the loop of
`fcd_lib_read`: the value of `fcd_thread_exit_flag` at the loop test, the
clock read by the first `fcd_lib_remaining`, the outcome of `ppoll`, the
outcome of `read`, and the clock read by the second `fcd_lib_remaining`.  An
outcome is consulted only if the iteration makes the call. -/
structure Step where
  exit_flag : Bool
  clock : Option Timespec
  poll : PollResult
  read : ReadResult
  clock_after : Option Timespec

/-- What the environment does during one call of `fcd_lib_read`: the clock read
by `fcd_lib_deadline`, then one `Step` for each iteration. -/
structure ReadScript where
  clock : Option Timespec
  steps : List Step

/-- Result of `fcd_lib_read`: the return value, the bytes stored at `buf`, the
bytes the descriptor has still to deliver, `*timeout`, and the timeouts that
were handed to `ppoll`, in order. -/
structure ReadOut where
  ret : Int
  data : List Nat
  src : List Nat
  timeout : Timespec
  waits : List Timespec

/-- The loop `while (!fcd_thread_exit_flag) { ... }` of `fcd_lib_read`.  `src`
is the content the descriptor has still to deliver before end of file.  The
result is `none` when the script ends before the call returns. -/
def fcd_lib_read_loop (deadline : Timespec) (count : Nat) :
    List Step → List Nat → Timespec → List Timespec → Option ReadOut
  | [], _, _, _ => none
  | s :: steps, src, timeout, waits =>
    if s.exit_flag then some ⟨-3, [], src, timeout, waits⟩
    else
      match fcd_lib_remaining s.clock deadline with
      | none => some ⟨-1, [], src, timeout, waits⟩
      | some timeout =>
        let waits := waits ++ [timeout]
        match s.poll with
        | .eintr => fcd_lib_read_loop deadline count steps src timeout waits
        | .error => some ⟨-1, [], src, timeout, waits⟩
        | .expired => some ⟨-2, [], src, timeout, waits⟩
        | .ready =>
          match s.read with
          | .eagain => fcd_lib_read_loop deadline count steps src timeout waits
          | .error => some ⟨-1, [], src, timeout, waits⟩
          | .deliver more =>
            let n := min (more + 1) (min count src.length)
            match fcd_lib_remaining s.clock_after deadline with
            | none => some ⟨-1, src.take n, src.drop n, timeout, waits⟩
            | some timeout => some ⟨n, src.take n, src.drop n, timeout, waits⟩

/-- The function `fcd_lib_read(fd, buf, count, timeout)` on a descriptor that has `src` to
deliver. -/
def fcd_lib_read (s : ReadScript) (src : List Nat) (count : Nat) (timeout : Timespec) :
    Option ReadOut :=
  match fcd_lib_deadline s.clock timeout with
  | none => some ⟨-1, [], src, timeout, []⟩
  | some deadline => fcd_lib_read_loop deadline count s.steps src timeout []

/-! ## Read-all loop (`fcd_lib_read_all`) -/

/-- Conversion of a `size_t` to `ssize_t` (`return total;`). -/
def ssize_of_size (n : Nat) : Int :=
  if n % SIZE_MOD < 2 ^ 63 then (n % SIZE_MOD : Nat) else (n % SIZE_MOD : Nat) - 2 ^ 64

/-- Conversion of an `ssize_t` to `size_t` (`total += ret;`). -/
def size_of_ssize (n : Int) : Nat := (n % 2 ^ 64).toNat

/-- The block after `bytes` have been stored at offset `off`. -/
def store (buf : Option (List Nat)) (off : Nat) (bytes : List Nat) : Option (List Nat) :=
  buf.map (fun b => b.take off ++ bytes ++ b.drop (off + bytes.length))

/-- What the environment does during one iteration of the loop of
`fcd_lib_read_all`: the outcome of the `realloc` call of `fcd_lib_grow_buf`
and the script of the `fcd_lib_read` call. -/
structure Round where
  alloc : Option (Nat → Nat)
  read : ReadScript

/-- Result of `fcd_lib_read_all`: the return value, the caller's `*buf` and
`*buf_size`, what the descriptor has still to deliver, and `*timeout`. -/
structure ReadAllOut where
  ret : Int
  buf : InBuf
  src : List Nat
  timeout : Timespec

/-- The loop `do { ... } while (ret != 0)` of `fcd_lib_read_all` and the
statements after it; `total` is the variable of that name.  The result is
`none` when the script ends before the call returns. -/
def fcd_lib_read_all_loop (max_size : Nat) :
    List Round → List Nat → InBuf → Timespec → Nat → Option ReadAllOut
  | [], _, _, _, _ => none
  | r :: rounds, src, b, timeout, total =>
    let g : Int × InBuf :=
      if total = b.buf_size then fcd_lib_grow_buf r.alloc b max_size else (0, b)
    if g.1 < 0 then some ⟨g.1, g.2, src, timeout⟩
    else
      match fcd_lib_read r.read src (size_sub g.2.buf_size total) timeout with
      | none => none
      | some o =>
        let b : InBuf := { g.2 with buf := store g.2.buf total o.data }
        if o.ret < 0 then some ⟨o.ret, b, o.src, o.timeout⟩
        else
          let total := size_add total (size_of_ssize o.ret)
          if o.ret ≠ 0 then fcd_lib_read_all_loop max_size rounds o.src b o.timeout total
          else
            some ⟨ssize_of_size total, { b with buf := store b.buf total [0] }, o.src,
              o.timeout⟩

/-- The function `fcd_lib_read_all(fd, buf, buf_size, max_size, timeout)` on a descriptor
that has `src` to deliver. -/
def fcd_lib_read_all (rounds : List Round) (src : List Nat) (b : InBuf) (max_size : Nat)
    (timeout : Timespec) : Option ReadAllOut :=
  fcd_lib_read_all_loop max_size rounds src b timeout 0

/-- A step of `fcd_lib_read` in which `ppoll` reports the descriptor ready and
`read` transfers data or reports end of file. -/
def Step.delivers (s : Step) : Bool :=
  s.poll == .ready && (match s.read with
    | .deliver _ => true
    | _ => false)

/-- A step of `fcd_lib_read` without cancellation, timeout or error: the exit
flag is clear, the clock works, `ppoll` is interrupted or reports the
descriptor ready, and in the latter case `read` would block or transfers data,
after which the clock works again.  Outcomes the iteration does not consult are
not constrained. -/
def Step.clean (s : Step) : Bool :=
  !s.exit_flag && s.clock.isSome && (match s.poll with
    | .eintr => true
    | .ready => (match s.read with
      | .eagain => true
      | .deliver _ => s.clock_after.isSome
      | .error => false)
    | _ => false)

/-- A script of `fcd_lib_read` without cancellation, timeout or error, in
which the retries end: some step delivers. -/
def ReadScript.clean (s : ReadScript) : Bool :=
  s.clock.isSome && s.steps.all Step.clean && s.steps.any Step.delivers

/-- A round of `fcd_lib_read_all` without cancellation, timeout or error:
`realloc` succeeds and the script of the read is clean. -/
def Round.clean (r : Round) : Bool := r.alloc.isSome && r.read.clean

/-- An iteration of the loop of `fcd_lib_read` that ends in `continue`: the
exit flag is clear, the clock works, and either `ppoll` is interrupted
(`EINTR`) or it reports the descriptor ready and `read` would block (`EAGAIN`,
`EWOULDBLOCK`). -/
def Step.retries (s : Step) : Bool :=
  !s.exit_flag && s.clock.isSome
    && (s.poll == .eintr || (s.poll == .ready && s.read == .eagain))

/-! ## Process executor (`fcd_lib_cmd_spawn`, `fcd_lib_cmd_output`, `fcd_lib_cmd_status`) -/

/-- The macro `WIFEXITED(status)` of `<sys/wait.h>`: `((status) & 0x7f) == 0`, on the
two's complement representation of the `int`. -/
def WIFEXITED (status : Int) : Bool := (status % 2 ^ 32).toNat &&& 0x7f == 0

/-- The macro `WEXITSTATUS(status)` of `<sys/wait.h>`: `((status) & 0xff00) >> 8`. -/
def WEXITSTATUS (status : Int) : Int := (((status % 2 ^ 32).toNat &&& 0xff00) >>> 8 : Nat)

/-- How a call ends: it returns a value, the process aborts (`FCD_ABORT`), or
control is in the forked child, which runs `fcd_lib_cmd_child` and never comes
back. -/
inductive Outcome where
  | ret (v : Int)
  | abort
  | child
  deriving DecidableEq, Repr

/-- Calls made to the operating system and to the reaper, with their results. -/
inductive ProcEv where
  | pipe2 (ok : Bool)
  | fork (ret : Int)
  | close (fd : Nat) (ok : Bool)
  | read_all (ret : Int)
  | wait (ret : Int)
  | kill (pid : Int)
  deriving DecidableEq, Repr

/-- What the environment does during one run of the executor: the outcome of
`pipe2` (the two descriptors, or `none` for -1), the value `fcd_proc_fork`
returns, whether closing the write end and the read end of the output pipe
succeeds (each is closed at most once), the script and the content of the
child's output for `fcd_lib_read_all`, and the outcome of `fcd_proc_wait`: its
return value, the raw status it stores in `*status` when it succeeds, and the
value it leaves in `*timeout`. -/
structure ProcScript where
  pipe2 : Option (Nat × Nat)
  fork : Int
  close_w : Bool
  close_r : Bool
  rounds : List Round
  src : List Nat
  wait_ret : Int
  wait_status : Int
  wait_timeout : Timespec

/-- Result of `fcd_lib_cmd_spawn`: how it ends, `*child` if it was assigned,
and the calls made. -/
structure SpawnOut where
  outcome : Outcome
  child : Option Int
  trace : List ProcEv

/-- The function `fcd_lib_cmd_spawn(child, cmd, reaper_pipe, create_output_pipe)`. -/
def fcd_lib_cmd_spawn (s : ProcScript) (create_output_pipe : Bool) : SpawnOut :=
  let fds : Nat × Nat := s.pipe2.getD (0, 0)
  if create_output_pipe ∧ s.pipe2 = none then ⟨.ret (-1), none, [.pipe2 false]⟩
  else
    let t0 : List ProcEv := if create_output_pipe then [.pipe2 true] else []
    let t1 := t0 ++ [.fork s.fork]
    if s.fork = -1 then
      if create_output_pipe then
        ⟨.ret (-1), some s.fork, t1 ++ [.close fds.1 s.close_r, .close fds.2 s.close_w]⟩
      else ⟨.ret (-1), some s.fork, t1⟩
    else if s.fork = 0 then ⟨.child, some s.fork, t1⟩
    else if create_output_pipe then
      if ¬ s.close_w then
        if ¬ s.close_r then
          ⟨.abort, some s.fork, t1 ++ [.close fds.2 false, .close fds.1 false]⟩
        else
          ⟨.ret (-1), some s.fork,
            t1 ++ [.close fds.2 false, .close fds.1 true, .kill s.fork]⟩
      else ⟨.ret fds.1, some s.fork, t1 ++ [.close fds.2 true]⟩
    else ⟨.ret 0, some s.fork, t1⟩

/-- Result of `fcd_lib_cmd_output`: how it ends, `*status`, the caller's buffer
variables, `*timeout`, and the calls made. -/
structure CmdOut where
  outcome : Outcome
  status : Int
  buf : InBuf
  timeout : Timespec
  trace : List ProcEv

/-- The function `fcd_lib_cmd_output(status, cmd, buf, buf_size, max_size, timeout, pipe_fds)`.
The result is `none` when the script of `fcd_lib_read_all` ends before that
call returns. -/
def fcd_lib_cmd_output (s : ProcScript) (status : Int) (b : InBuf) (max_size : Nat)
    (timeout : Timespec) : Option CmdOut :=
  let sp := fcd_lib_cmd_spawn s true
  match sp.outcome with
  | .abort => some ⟨.abort, status, b, timeout, sp.trace⟩
  | .child => some ⟨.child, status, b, timeout, sp.trace⟩
  | .ret fd =>
    if fd = -1 then some ⟨.ret (-1), status, b, timeout, sp.trace⟩
    else
      let child : Int := sp.child.getD 0
      match fcd_lib_read_all s.rounds s.src b max_size timeout with
      | none => none
      | some o =>
        let t1 := sp.trace ++ [.read_all o.ret]
        if o.ret < 0 then
          some ⟨.ret o.ret, status, o.buf, o.timeout,
            t1 ++ [.close fd.toNat s.close_r, .kill child]⟩
        else if ¬ s.close_r then
          some ⟨.ret (-1), status, o.buf, o.timeout,
            t1 ++ [.close fd.toNat false, .kill child]⟩
        else
          let t2 := t1 ++ [.close fd.toNat true, .wait s.wait_ret]
          if s.wait_ret < 0 then
            some ⟨.ret s.wait_ret, status, o.buf, s.wait_timeout, t2 ++ [.kill child]⟩
          else if ¬ WIFEXITED s.wait_status then
            some ⟨.ret (-1), s.wait_status, o.buf, s.wait_timeout, t2⟩
          else
            some ⟨.ret o.ret, WEXITSTATUS s.wait_status, o.buf, s.wait_timeout, t2⟩

/-- The function `fcd_lib_cmd_status(cmd, timeout, pipe_fds)`: how it ends, `*timeout`, and
the calls made. -/
def fcd_lib_cmd_status (s : ProcScript) (timeout : Timespec) :
    Outcome × Timespec × List ProcEv :=
  let sp := fcd_lib_cmd_spawn s false
  match sp.outcome with
  | .abort => (.abort, timeout, sp.trace)
  | .child => (.child, timeout, sp.trace)
  | .ret r =>
    if r = -1 then (.ret (-1), timeout, sp.trace)
    else
      let child : Int := sp.child.getD 0
      let t1 := sp.trace ++ [.wait s.wait_ret]
      if s.wait_ret < 0 then (.ret s.wait_ret, s.wait_timeout, t1 ++ [.kill child])
      else if ¬ WIFEXITED s.wait_status then (.ret (-1), s.wait_timeout, t1)
      else (.ret (WEXITSTATUS s.wait_status), s.wait_timeout, t1)

/-- The kill discipline of a run of the executor, on its outcome and the calls
it made.  First part: if the child was spawned (`fcd_proc_fork` returned
neither -1 nor 0), the run returns, and `fcd_lib_read_all` failed, or a `close`
failed, or `fcd_proc_wait` failed, then the last call made is `fcd_proc_kill`
for that child.  Second part: if `fcd_proc_wait` succeeded, no `fcd_proc_kill`
was requested. -/
def KillDiscipline (outcome : Outcome) (trace : List ProcEv) : Prop :=
  (∀ pid v, ProcEv.fork pid ∈ trace → pid ≠ -1 → pid ≠ 0 → outcome = .ret v →
      ((∃ r, r < 0 ∧ ProcEv.read_all r ∈ trace) ∨ (∃ fd, ProcEv.close fd false ∈ trace) ∨
        (∃ r, r < 0 ∧ ProcEv.wait r ∈ trace)) →
      trace.getLast? = some (.kill pid)) ∧
    ((∃ r, 0 ≤ r ∧ ProcEv.wait r ∈ trace) → ∀ pid, ProcEv.kill pid ∉ trace)

/-! ## Status publisher (`fcd_lib_fail`, `fcd_lib_set_mon_status2`) -/

/-- The requests `FCD_ALERT_SET_REQ` and `FCD_ALERT_CLR_REQ`. -/
inductive AlertReq where
  | set
  | clr
  deriving DecidableEq, Repr

/-- Modelled from the spec: `fcd_alert_update` belongs to the alert subsystem,
which is not part of `lib.c`; the core "only submits set/clear requests" to an
alert cell.  A cell is the list of the requests submitted to it, oldest first,
and a request is appended. -/
def fcd_alert_update (req : AlertReq) (cell : List AlertReq) : List AlertReq :=
  cell ++ [req]

/-- The fields of `struct fcd_monitor` that `lib.c` writes: the display buffer
`buf` (byte at each index), the alert cells `sys_warn`, `sys_fail` and
`disk_alerts[]`, and `new_pwm_flags`. -/
structure fcd_monitor where
  buf : Nat → Nat
  sys_warn : List AlertReq
  sys_fail : List AlertReq
  disk_alerts : Nat → List AlertReq
  new_pwm_flags : Nat

/-- The call `memcpy(dst + off, src, n)` on byte maps. -/
def memcpy (dst : Nat → Nat) (off : Nat) (src : Nat → Nat) (n : Nat) : Nat → Nat :=
  fun i => if off ≤ i ∧ i < off + n then src (i - off) else dst i

/-- The array `static const char disabled_msg[20] = "ERROR: NOT AVAILABLE";` -/
def disabled_msg : List Nat :=
  [69, 82, 82, 79, 82, 58, 32, 78, 79, 84, 32, 65, 86, 65, 73, 76, 65, 66, 76, 69]

/-- The function `fcd_lib_fail(mon)`.  `lock_ret` and `unlock_ret` are the values returned
by `pthread_mutex_lock` and `pthread_mutex_unlock`; the result is `none` when
the process aborts (`FCD_PT_ABRT`). -/
def fcd_lib_fail (lock_ret unlock_ret : Int) (mon : fcd_monitor) : Option fcd_monitor :=
  if lock_ret ≠ 0 then none
  else
    let mon := { mon with sys_fail := fcd_alert_update .set mon.sys_fail }
    let mon := { mon with buf := memcpy mon.buf 45 (fun i => disabled_msg.getD i 0) 20 }
    if unlock_ret ≠ 0 then none else some mon

/-- An entry of `fcd_conf_disks[]`: the device name (`char name[FCD_DISK_NAME_SIZE]`)
and the port number. -/
structure fcd_raid_disk where
  name : List Nat
  port_no : Nat

/-- The request `flag ? FCD_ALERT_SET_REQ : FCD_ALERT_CLR_REQ`. -/
def alert_req (flag : Int) : AlertReq := if flag ≠ 0 then .set else .clr

/-- The value of `led` after `led = fcd_conf_disks[i].port_no - 2;`, `led` being
an `unsigned`. -/
def disk_led (port_no : Nat) : Nat := (port_no + 2 ^ 32 - 2) % 2 ^ 32

/-- The loop `for (i = 0; i < fcd_conf_disk_count; ++i)` of
`fcd_lib_set_mon_status2`, from index `i` on; the list is the rest of
`fcd_conf_disks[]`. -/
def set_disk_alerts (disks : Nat → Int) :
    List fcd_raid_disk → Nat → (Nat → List AlertReq) → (Nat → List AlertReq)
  | [], _, cells => cells
  | d :: ds, i, cells =>
    let led := disk_led d.port_no
    set_disk_alerts disks ds (i + 1)
      (Function.update cells led (fcd_alert_update (alert_req (disks i)) (cells led)))

/-- The requests the loop of `fcd_lib_set_mon_status2` submits to the LED cell
`c`, in order, from index `i` on. -/
def disk_reqs (disks : Nat → Int) (c : Nat) : List fcd_raid_disk → Nat → List AlertReq
  | [], _ => []
  | d :: ds, i =>
    (if disk_led d.port_no = c then [alert_req (disks i)] else [])
      ++ disk_reqs disks c ds (i + 1)

/-- The function `fcd_lib_set_mon_status2(mon, upper, lower, warn, fail, disks, pwm_flags)`
with the disk table `conf` (`fcd_conf_disks[]`, `fcd_conf_disk_count` entries).
A pointer argument is the memory it points to, `none` being `NULL`. -/
def fcd_lib_set_mon_status2 (conf : List fcd_raid_disk) (lock_ret unlock_ret : Int)
    (mon : fcd_monitor) (upper : Option (Nat → Nat)) (lower : Nat → Nat) (warn fail : Int)
    (disks : Option (Nat → Int)) (pwm_flags : Nat) : Option fcd_monitor :=
  if lock_ret ≠ 0 then none
  else
    let mon :=
      match upper with
      | some u => { mon with buf := memcpy mon.buf 5 u 20 }
      | none => mon
    let mon := { mon with buf := memcpy mon.buf 45 lower 20 }
    let mon := { mon with sys_warn := fcd_alert_update (alert_req warn) mon.sys_warn }
    let mon := { mon with sys_fail := fcd_alert_update (alert_req fail) mon.sys_fail }
    let mon := { mon with new_pwm_flags := pwm_flags }
    let mon :=
      match disks with
      | some d => { mon with disk_alerts := set_disk_alerts d conf 0 mon.disk_alerts }
      | none => mon
    if unlock_ret ≠ 0 then none else some mon

/-- The function `fcd_lib_set_mon_status(mon, buf, warn, fail, disks, pwm_flags)`. -/
def fcd_lib_set_mon_status (conf : List fcd_raid_disk) (lock_ret unlock_ret : Int)
    (mon : fcd_monitor) (buf : Nat → Nat) (warn fail : Int) (disks : Option (Nat → Int))
    (pwm_flags : Nat) : Option fcd_monitor :=
  fcd_lib_set_mon_status2 conf lock_ret unlock_ret mon none buf warn fail disks pwm_flags

/-- The arguments of one call of `fcd_lib_set_mon_status2`. -/
structure StatusArgs where
  upper : Option (Nat → Nat)
  lower : Nat → Nat
  warn : Int
  fail : Int
  disks : Option (Nat → Int)
  pwm_flags : Nat

/-- A call of `fcd_lib_set_mon_status2` whose mutex operations succeed. -/
def publish (conf : List fcd_raid_disk) (mon : fcd_monitor) (a : StatusArgs) :
    Option fcd_monitor :=
  fcd_lib_set_mon_status2 conf 0 0 mon a.upper a.lower a.warn a.fail a.disks a.pwm_flags

/-! ## Disk table (`fcd_lib_disk_index`, `fcd_conf_raiddisks_cb`) -/

/-- The constant `FCD_DISK_NAME_SIZE` of `freecusd.h`: the size of a name of
the form `/dev/sdX` with its terminator, as the checks of
`fcd_conf_raiddisks_cb` on the default names require. -/
def FCD_DISK_NAME_SIZE : Nat := 9

/-- Conversion of an `unsigned` to `int` (`(int)fcd_conf_disk_count`). -/
def int_of_unsigned (n : Nat) : Int :=
  if n % 2 ^ 32 < 2 ^ 31 then (n % 2 ^ 32 : Nat) else (n % 2 ^ 32 : Nat) - 2 ^ 32

/-- The character `name[FCD_DISK_NAME_SIZE - 2]` of a disk name. -/
def disk_letter (name : List Nat) : Nat := name.getD (FCD_DISK_NAME_SIZE - 2) 0

/-- The loop of `fcd_lib_disk_index` from index `i` on, `count` being
`(int)fcd_conf_disk_count`; the list is the rest of `fcd_conf_disks[]`. -/
def fcd_lib_disk_index_loop (c : Nat) (count : Int) : List fcd_raid_disk → Nat → Int
  | [], _ => -1
  | d :: ds, i =>
    if (i : Int) < count then
      if c = disk_letter d.name then i else fcd_lib_disk_index_loop c count ds (i + 1)
    else -1

/-- The function `fcd_lib_disk_index(c)` with the disk table `conf`. -/
def fcd_lib_disk_index (conf : List fcd_raid_disk) (c : Nat) : Int :=
  fcd_lib_disk_index_loop c (int_of_unsigned conf.length) conf 0

/-- The test of one entry in `fcd_conf_raiddisks_cb`: `true` when the entry is
rejected as an invalid disk.  A string is the list of its characters, without
the terminator. -/
def raiddisk_invalid (disk : List Nat) : Bool :=
  disk.length != FCD_DISK_NAME_SIZE - 1
    || disk.take (FCD_DISK_NAME_SIZE - 2) != [47, 100, 101, 118, 47, 115, 100]
    || disk_letter disk < 97
    || disk_letter disk > 122

/-- The first loop of `fcd_conf_raiddisks_cb` from index `i` on: `earlier` holds
`list->values[0 .. i-1]`; the result is `true` when no entry is rejected. -/
def raiddisks_scan : List (List Nat) → List (List Nat) → Bool
  | _, [] => true
  | earlier, disk :: rest =>
    if raiddisk_invalid disk then false
    else if earlier.any (fun e => disk_letter disk == disk_letter e) then false
    else raiddisks_scan (earlier ++ [disk]) rest

/-- The callback `fcd_conf_raiddisks_cb` on the string list `list`, `max_count` being
`FCD_MAX_DISK_COUNT`: `none` for the return value -1, otherwise the rows of
`fcd_conf_disk_names[]` it fills (`fcd_conf_disk_count` is their number). -/
def fcd_conf_raiddisks_cb (max_count : Nat) (list : List (List Nat)) :
    Option (List (List Nat)) :=
  if list.length < 1 ∨ list.length > max_count then none
  else if ¬ raiddisks_scan [] list then none
  else some (list.map (fun v => (v ++ [0]).take FCD_DISK_NAME_SIZE))

/-! ## Sample inputs -/

/-- A clock reading for the sample scripts. -/
def sample_clock : Timespec := ⟨100, 0⟩

/-- A round in which `realloc` succeeds and the first `read` hands over up to
4096 bytes. -/
def clean_round : Round :=
  ⟨some (fun _ => 255),
    ⟨some sample_clock,
      [⟨false, some sample_clock, .ready, .deliver 4095, some sample_clock⟩]⟩⟩

/-- A round in which `realloc` succeeds, `ppoll` is interrupted once, `read`
would block once, and `read` then hands over a single byte. -/
def retry_round : Round :=
  ⟨some (fun _ => 255),
    ⟨some sample_clock,
      [⟨false, some sample_clock, .eintr, .error, none⟩,
       ⟨false, some sample_clock, .ready, .eagain, none⟩,
       ⟨false, some sample_clock, .ready, .deliver 0, some sample_clock⟩]⟩⟩

/-- A script of `fcd_lib_read`: the deadline is computed at 100 s; `ppoll` is
interrupted at 101 s, `read` would block at 102 s, and `ppoll` reports expiry
at 103 s. -/
def retry_script : ReadScript :=
  ⟨some ⟨100, 0⟩,
    [⟨false, some ⟨101, 0⟩, .eintr, .error, none⟩,
     ⟨false, some ⟨102, 0⟩, .ready, .eagain, none⟩,
     ⟨false, some ⟨103, 0⟩, .expired, .error, none⟩]⟩

/-- A round in which `realloc` fails. -/
def failed_alloc_round : Round := ⟨none, ⟨some sample_clock, []⟩⟩

/-- A run of the executor: the pipe is the descriptors 3 and 4, the child is
process 77, both ends of the pipe close without error, and the other outcomes
are the arguments. -/
def sample_run (rounds : List Round) (src : List Nat) (wait_ret wait_status : Int) :
    ProcScript :=
  ⟨some (3, 4), 77, true, true, rounds, src, wait_ret, wait_status, ⟨1, 0⟩⟩

/-- A disk table with the disks `/dev/sdb` on port 2 and `/dev/sdc` on port 3. -/
def sample_conf : List fcd_raid_disk :=
  [⟨[47, 100, 101, 118, 47, 115, 100, 98, 0], 2⟩,
   ⟨[47, 100, 101, 118, 47, 115, 100, 99, 0], 3⟩]

/-- A monitor record: a display of spaces, no request submitted yet. -/
def sample_monitor : fcd_monitor := ⟨fun _ => 32, [], [], fun _ => [], 0⟩

/-- Arguments that supply the upper text and the per-disk results. -/
def sample_args_full : StatusArgs :=
  ⟨some (fun _ => 65), fun _ => 66, 1, 1, some (fun _ => 1), 3⟩

/-- Arguments that supply neither the upper text nor the per-disk results. -/
def sample_args_lower : StatusArgs := ⟨none, fun _ => 67, 0, 0, none, 0⟩

/-- Other arguments that supply the upper text and the per-disk results. -/
def sample_args_other : StatusArgs :=
  ⟨some (fun _ => 68), fun _ => 69, 0, 1, some (fun _ => 0), 5⟩

/-! # Theorems -/

/-! ## Buffer growth -/

theorem size_sub_add_one (m : Nat) :
    size_sub (size_add m FCD_LIB_BUF_CHUNK) 1 = (m + 1999) % SIZE_MOD := by
  unfold size_sub size_add FCD_LIB_BUF_CHUNK SIZE_MOD
  omega

/-- The realized cap is `max_size + 1999`, reduced modulo `SIZE_MAX + 1`, rounded
down to a multiple of 2000. -/
theorem fcd_lib_grow_buf_cap_val (m : Nat) :
    fcd_lib_grow_buf_cap m = (m + 1999) % SIZE_MOD / 2000 * 2000 := by
  unfold fcd_lib_grow_buf_cap
  rw [size_sub_add_one]
  unfold size_mul FCD_LIB_BUF_CHUNK SIZE_MOD
  omega

/-- As long as `max_size + 1999` does not wrap, the realized cap is `max_size`
rounded up to a multiple of the chunk size. -/
theorem fcd_lib_grow_buf_cap_in_range (m : Nat) (h : m + 1999 < SIZE_MOD) :
    fcd_lib_grow_buf_cap m
      = (m + FCD_LIB_BUF_CHUNK - 1) / FCD_LIB_BUF_CHUNK * FCD_LIB_BUF_CHUNK := by
  rw [fcd_lib_grow_buf_cap_val, Nat.mod_eq_of_lt h]
  rfl

theorem fcd_lib_grow_buf_cap_lt (m : Nat) : fcd_lib_grow_buf_cap m < SIZE_MOD ∧
    fcd_lib_grow_buf_cap m % 2000 = 0 := by
  rw [fcd_lib_grow_buf_cap_val]
  unfold SIZE_MOD
  omega

/-- What `fcd_lib_grow_buf` does when neither `max_size + 1999` nor
`*buf_size + 2000` wraps: the cap is `max_size` rounded up to a chunk multiple,
-4 is returned exactly when the new size exceeds it, the caller's variables are
then untouched, and otherwise a successful allocation gives 0 and the new
size. -/
theorem fcd_lib_grow_buf_in_range (alloc : Option (Nat → Nat)) (b : InBuf) (max_size : Nat)
    (hmax : max_size + 1999 < SIZE_MOD) (hsize : b.buf_size + 2000 < SIZE_MOD) :
    fcd_lib_grow_buf_cap max_size
        = (max_size + FCD_LIB_BUF_CHUNK - 1) / FCD_LIB_BUF_CHUNK * FCD_LIB_BUF_CHUNK ∧
      fcd_lib_grow_buf_new_size b
        = (if b.buf = none ∨ b.buf_size = 0 then FCD_LIB_BUF_CHUNK
            else b.buf_size + FCD_LIB_BUF_CHUNK) ∧
      ((fcd_lib_grow_buf alloc b max_size).1 = -4
        ↔ fcd_lib_grow_buf_new_size b > fcd_lib_grow_buf_cap max_size) ∧
      ((fcd_lib_grow_buf alloc b max_size).1 = -4 → (fcd_lib_grow_buf alloc b max_size).2 = b) ∧
      (¬ fcd_lib_grow_buf_new_size b > fcd_lib_grow_buf_cap max_size → alloc.isSome = true →
        (fcd_lib_grow_buf alloc b max_size).1 = 0 ∧
        (fcd_lib_grow_buf alloc b max_size).2.buf_size = fcd_lib_grow_buf_new_size b) := by
  refine ⟨fcd_lib_grow_buf_cap_in_range max_size hmax, ?_, ?_, ?_, ?_⟩
  · unfold fcd_lib_grow_buf_new_size size_add FCD_LIB_BUF_CHUNK
    split_ifs
    · rfl
    · exact Nat.mod_eq_of_lt hsize
  · unfold fcd_lib_grow_buf
    by_cases h : fcd_lib_grow_buf_new_size b > fcd_lib_grow_buf_cap max_size
    · simp [h]
    · cases alloc <;> simp [h]
  · unfold fcd_lib_grow_buf
    by_cases h : fcd_lib_grow_buf_new_size b > fcd_lib_grow_buf_cap max_size
    · simp [h]
    · cases alloc <;> simp [h]
  · intro h ha
    obtain ⟨fresh, rfl⟩ := Option.isSome_iff_exists.mp ha
    unfold fcd_lib_grow_buf
    simp [h]

/-- Claim C1, at the input the code gets wrong: for `max_size = SIZE_MAX` the
addition `max_size + FCD_LIB_BUF_CHUNK - 1` wraps, the realized cap is 0 instead
of `max_size` rounded up to a multiple of 2000, and the first growth of an empty
buffer is refused with -4, whatever the allocator would have done. -/
theorem fcd_lib_grow_buf_cap_wraps_at_size_max :
    fcd_lib_grow_buf_cap (2 ^ 64 - 1) = 0 ∧
      2 ^ 64 - 1 ≤ (2 ^ 64 - 1 + FCD_LIB_BUF_CHUNK - 1) / FCD_LIB_BUF_CHUNK * FCD_LIB_BUF_CHUNK ∧
      fcd_lib_grow_buf_new_size ⟨none, 0⟩ = 2000 ∧
      ∀ alloc, fcd_lib_grow_buf alloc ⟨none, 0⟩ (2 ^ 64 - 1) = (-4, ⟨none, 0⟩) := by
  have h : fcd_lib_grow_buf_cap (2 ^ 64 - 1) = 0 := by decide
  refine ⟨h, by decide, rfl, ?_⟩
  intro alloc
  unfold fcd_lib_grow_buf
  simp only [h]
  rfl

/-! ## Timed read and read-all loop -/

theorem realloc_length (fresh : Nat → Nat) (old : Option (List Nat)) (n : Nat) :
    (realloc fresh old n).length = n := by
  simp [realloc]

theorem realloc_take (fresh : Nat → Nat) (old : Option (List Nat)) (n t : Nat)
    (ht : t ≤ (old.getD []).length) (hn : t ≤ n) :
    (realloc fresh old n).take t = (old.getD []).take t := by
  apply List.ext_getElem?
  intro i
  by_cases hi : i < t
  · have h1 : i < n := by omega
    have h2 : i < (old.getD []).length := by omega
    simp [realloc, List.getElem?_take, hi, h1, List.getElem?_eq_getElem h2]
  · simp [List.getElem?_take, hi]

theorem store_length (blk : List Nat) (off : Nat) (data : List Nat)
    (h : off + data.length ≤ blk.length) :
    (blk.take off ++ data ++ blk.drop (off + data.length)).length = blk.length := by
  simp only [List.length_append, List.length_take, List.length_drop]
  omega

theorem store_take (blk : List Nat) (off : Nat) (data : List Nat) (h : off ≤ blk.length) :
    (blk.take off ++ data ++ blk.drop (off + data.length)).take (off + data.length)
      = blk.take off ++ data := by
  have hl : (blk.take off ++ data).length = off + data.length := by
    simp only [List.length_append, List.length_take]
    omega
  rw [← hl, List.take_left']
  rfl

theorem fcd_lib_remaining_some (now d : Timespec) :
    ∃ r, fcd_lib_remaining (some now) d = some r := by
  simp only [fcd_lib_remaining]
  split_ifs <;> exact ⟨_, rfl⟩

theorem fcd_lib_read_loop_clean (deadline : Timespec) (count : Nat) (steps : List Step)
    (src : List Nat) (timeout : Timespec) (waits : List Timespec)
    (hclean : steps.all Step.clean = true) (hdel : steps.any Step.delivers = true) :
    ∃ o more, fcd_lib_read_loop deadline count steps src timeout waits = some o ∧
      o.ret = ((min (more + 1) (min count src.length) : Nat) : Int) ∧
      o.data = src.take (min (more + 1) (min count src.length)) ∧
      o.src = src.drop (min (more + 1) (min count src.length)) := by
  induction steps generalizing timeout waits with
  | nil => simp at hdel
  | cons s steps ih =>
    simp only [List.all_cons, Bool.and_eq_true] at hclean
    obtain ⟨hs, hrest⟩ := hclean
    simp only [Step.clean, Bool.and_eq_true, Bool.not_eq_true', Option.isSome_iff_exists] at hs
    obtain ⟨⟨hflag, ⟨now, hnow⟩⟩, hpr⟩ := hs
    obtain ⟨r1, hr1⟩ := fcd_lib_remaining_some now deadline
    simp only [fcd_lib_read_loop, hflag, hnow, hr1]
    simp only [List.any_cons, Bool.or_eq_true] at hdel
    rcases hp : s.poll with _ | _ | _ | _
    · have hnd : s.delivers = false := by simp [Step.delivers, hp]
      have hdel' : steps.any Step.delivers = true := by simpa [hnd] using hdel
      simpa using ih r1 (waits ++ [r1]) hrest hdel'
    · simp [hp] at hpr
    · simp [hp] at hpr
    · rcases hrd : s.read with _ | _ | more
      · have hnd : s.delivers = false := by simp [Step.delivers, hrd]
        have hdel' : steps.any Step.delivers = true := by simpa [hnd] using hdel
        simpa using ih r1 (waits ++ [r1]) hrest hdel'
      · simp [hp, hrd] at hpr
      · simp only [hp, hrd, Option.isSome_iff_exists] at hpr
        obtain ⟨now2, hnow2⟩ := hpr
        obtain ⟨r2, hr2⟩ := fcd_lib_remaining_some now2 deadline
        simp only [hnow2, hr2]
        exact ⟨_, more, rfl, rfl, rfl, rfl⟩

theorem fcd_lib_read_clean (s : ReadScript) (src : List Nat) (count : Nat)
    (timeout : Timespec) (hclean : s.clean = true) :
    ∃ o more, fcd_lib_read s src count timeout = some o ∧
      o.ret = ((min (more + 1) (min count src.length) : Nat) : Int) ∧
      o.data = src.take (min (more + 1) (min count src.length)) ∧
      o.src = src.drop (min (more + 1) (min count src.length)) := by
  simp only [ReadScript.clean, Bool.and_eq_true, Option.isSome_iff_exists] at hclean
  obtain ⟨⟨⟨now, hnow⟩, hall⟩, hany⟩ := hclean
  have hd : ∃ d, fcd_lib_deadline (some now) timeout = some d := by
    simp only [fcd_lib_deadline]
    split_ifs <;> exact ⟨_, rfl⟩
  obtain ⟨d, hd⟩ := hd
  simp only [fcd_lib_read, hnow, hd]
  exact fcd_lib_read_loop_clean d count s.steps src timeout [] hall hany

theorem grow_step (alloc : Option (Nat → Nat)) (b : InBuf) (max_size total : Nat)
    (halloc : alloc.isSome = true)
    (hmod : b.buf_size % 2000 = 0) (hle : total ≤ b.buf_size)
    (hlt : b.buf_size < total + 2000)
    (hblk : (b.buf = none ∧ b.buf_size = 0) ∨ ∃ blk, b.buf = some blk ∧ blk.length = b.buf_size)
    (hcap : total < fcd_lib_grow_buf_cap max_size) :
    ∃ blk size,
      (if total = b.buf_size then fcd_lib_grow_buf alloc b max_size else (0, b))
        = (0, ⟨some blk, size⟩) ∧
      blk.length = size ∧ total < size ∧ size ≤ total + 2000 ∧ size % 2000 = 0 ∧
      size < SIZE_MOD ∧ blk.take total = (b.buf.getD []).take total := by
  obtain ⟨hc1, hc2⟩ := fcd_lib_grow_buf_cap_lt max_size
  obtain ⟨fresh, rfl⟩ := Option.isSome_iff_exists.mp halloc
  by_cases ht : total = b.buf_size
  · have hnew : fcd_lib_grow_buf_new_size b = total + 2000 := by
      unfold fcd_lib_grow_buf_new_size FCD_LIB_BUF_CHUNK
      rcases hblk with ⟨hn, h0⟩ | ⟨blk, hb, hlen⟩
      · rw [if_pos (Or.inl hn)]; omega
      · by_cases h0 : b.buf_size = 0
        · rw [if_pos (Or.inr h0)]; omega
        · have : ¬ (b.buf = none ∨ b.buf_size = 0) := by simp [hb, h0]
          rw [if_neg this]
          unfold size_add
          unfold SIZE_MOD at *
          omega
    have hfit : ¬ (total + 2000 > fcd_lib_grow_buf_cap max_size) := by omega
    refine ⟨realloc fresh b.buf (total + 2000), total + 2000, ?_, realloc_length _ _ _,
      by omega, by omega, by omega, by unfold SIZE_MOD at *; omega, ?_⟩
    · rw [if_pos ht]
      simp only [fcd_lib_grow_buf, hnew, if_neg hfit]
    · apply realloc_take
      · rcases hblk with ⟨hn, h0⟩ | ⟨blk, hb, hlen⟩
        · omega
        · simp only [hb, Option.getD_some]; omega
      · omega
  · rcases hblk with ⟨hn, h0⟩ | ⟨blk, hb, hlen⟩
    · omega
    · refine ⟨blk, b.buf_size, ?_, hlen, by omega, by omega, hmod, ?_, by simp [hb]⟩
      · rw [if_neg ht]
        obtain ⟨bb, bs⟩ := b
        simp only at hb
        simp [hb]
      · unfold SIZE_MOD at *; omega

theorem size_of_ssize_cast (n : Nat) (h : n < 2 ^ 64) : size_of_ssize (n : Int) = n := by
  unfold size_of_ssize
  have : ((n : Int) % 2 ^ 64) = (n : Int) := Int.emod_eq_of_lt (by omega) (by omega)
  rw [this]
  simp

theorem fcd_lib_read_all_loop_clean (max_size : Nat) (rounds : List Round) (src : List Nat)
    (b : InBuf) (timeout : Timespec) (total : Nat)
    (hclean : ∀ r ∈ rounds, r.clean = true) (hlen : src.length < rounds.length)
    (hmod : b.buf_size % 2000 = 0) (hle : total ≤ b.buf_size)
    (hlt : b.buf_size < total + 2000)
    (hblk : (b.buf = none ∧ b.buf_size = 0) ∨ ∃ blk, b.buf = some blk ∧ blk.length = b.buf_size)
    (hcap : total + src.length < fcd_lib_grow_buf_cap max_size)
    (hfit : total + src.length < 2 ^ 63) :
    ∃ o blk, fcd_lib_read_all_loop max_size rounds src b timeout total = some o ∧
      o.ret = ((total + src.length : Nat) : Int) ∧
      o.buf.buf_size = ((total + src.length) / 2000 + 1) * 2000 ∧
      o.buf.buf = some blk ∧ blk.length = o.buf.buf_size ∧
      blk.take (total + src.length) = (b.buf.getD []).take total ++ src ∧
      blk.get? (total + src.length) = some 0 ∧ o.src = [] := by
  induction rounds generalizing src b timeout total with
  | nil => simp at hlen
  | cons r rounds ih =>
    have hr : r.clean = true := hclean r (List.mem_cons_self _ _)
    simp only [Round.clean, Bool.and_eq_true] at hr
    obtain ⟨blk1, size1, hg, hl1, ht1, hs1, hm1, hsz, htake1⟩ :=
      grow_step r.alloc b max_size total hr.1 hmod hle hlt hblk (by omega)
    have hcount : size_sub size1 total = size1 - total := by
      unfold size_sub
      unfold SIZE_MOD at *
      have : total % 2 ^ 64 = total := Nat.mod_eq_of_lt (by omega)
      rw [this]
      omega
    obtain ⟨o, more, ho, hret, hdata, hsrc⟩ :=
      fcd_lib_read_clean r.read src (size_sub size1 total) timeout hr.2
    rw [hcount] at ho hret hdata hsrc
    generalize hn : min (more + 1) (min (size1 - total) src.length) = n at hret hdata hsrc
    have hn1 : n ≤ size1 - total := by omega
    have hn2 : n ≤ src.length := by omega
    have hn3 : n = 0 → src.length = 0 := by omega
    have hdl : o.data.length = n := by rw [hdata, List.length_take]; omega
    have hnneg : ¬ (o.ret < 0) := by rw [hret]; omega
    have htot : size_add total (size_of_ssize o.ret) = total + n := by
      rw [hret, size_of_ssize_cast n (by omega)]
      unfold size_add SIZE_MOD
      exact Nat.mod_eq_of_lt (by omega)
    simp only [fcd_lib_read_all_loop, hg, hcount, ho, store, Option.map_some', hnneg, htot,
      lt_self_iff_false, if_false]
    by_cases hz : n = 0
    · have hsrc0 : src = [] := List.length_eq_zero.mp (hn3 hz)
      subst hz
      have hd0 : o.data = [] := List.length_eq_zero.mp hdl
      have hret0 : o.ret = 0 := by simpa using hret
      simp only [hret0, ne_eq, not_true_eq_false, if_false, hd0, List.append_nil,
        List.length_nil, Nat.add_zero, List.take_append_drop]
      subst hsrc0
      refine ⟨_, _, rfl, ?_, ?_, rfl, ?_, ?_, ?_, ?_⟩
      · simp only [List.length_nil, Nat.add_zero]
        unfold ssize_of_size SIZE_MOD
        have : total % 2 ^ 64 = total := Nat.mod_eq_of_lt (by omega)
        rw [this, if_pos (by simpa using hfit)]
      · simp only [List.length_nil, Nat.add_zero]
        omega
      · simp only [List.length_append, List.length_take, List.length_drop, List.length_cons,
          List.length_nil]
        omega
      · simp only [List.length_nil, Nat.add_zero, List.append_nil]
        rw [List.append_assoc, List.take_append_of_le_length (by simp; omega)]
        rw [List.take_take, Nat.min_self, htake1]
      · simp only [List.length_nil, Nat.add_zero]
        rw [List.append_assoc, List.get?_eq_getElem?, List.getElem?_append_right (by simp)]
        simp only [List.length_take]
        have : total - min total blk1.length = 0 := by omega
        rw [this]
        simp
      · simpa using hsrc
    · have hretne : o.ret ≠ 0 := by rw [hret]; omega
      simp only [hretne, ne_eq, not_false_eq_true, if_true]
      have hstl : (blk1.take total ++ o.data ++ blk1.drop (total + o.data.length)).length
          = size1 := by
        rw [store_length _ _ _ (by omega), hl1]
      obtain ⟨o', blk', ho', hret', hsz', hbuf', hlen', htake', hget', hsrc'⟩ :=
        ih o.src ⟨some (blk1.take total ++ o.data ++ blk1.drop (total + o.data.length)), size1⟩
          o.timeout (total + n)
          (fun r' hr' => hclean r' (List.mem_cons_of_mem _ hr'))
          (by rw [hsrc, List.length_drop]; simp only [List.length_cons] at hlen; omega)
          hm1 (show total + n ≤ size1 by omega) (show size1 < total + n + 2000 by omega)
          (Or.inr ⟨_, rfl, hstl⟩)
          (by rw [hsrc, List.length_drop]; omega)
          (by rw [hsrc, List.length_drop]; omega)
      have hsum : total + n + o.src.length = total + src.length := by
        rw [hsrc, List.length_drop]; omega
      rw [hsum] at hret' hsz' htake' hget'
      refine ⟨o', blk', ho', hret', hsz', hbuf', hlen', ?_, hget', hsrc'⟩
      rw [htake']
      simp only [Option.getD_some]
      have : total + n = total + o.data.length := by rw [hdl]
      rw [this, store_take _ _ _ (by omega), htake1, hdata, hsrc, List.append_assoc,
        List.take_append_drop]

theorem fcd_lib_read_all_loop_cap (max_size : Nat) (rounds : List Round) (src : List Nat)
    (b : InBuf) (timeout : Timespec) (total : Nat)
    (hclean : ∀ r ∈ rounds, r.clean = true) (hlen : src.length < rounds.length)
    (hmod : b.buf_size % 2000 = 0) (hle : total ≤ b.buf_size)
    (hlt : b.buf_size < total + 2000)
    (hblk : (b.buf = none ∧ b.buf_size = 0) ∨ ∃ blk, b.buf = some blk ∧ blk.length = b.buf_size)
    (hsize : b.buf_size ≤ fcd_lib_grow_buf_cap max_size)
    (hcap : fcd_lib_grow_buf_cap max_size ≤ total + src.length)
    (hwrap : fcd_lib_grow_buf_cap max_size + 2000 < SIZE_MOD) :
    ∃ o, fcd_lib_read_all_loop max_size rounds src b timeout total = some o ∧ o.ret = -4 := by
  induction rounds generalizing src b timeout total with
  | nil => simp at hlen
  | cons r rounds ih =>
    obtain ⟨hc1, hc2⟩ := fcd_lib_grow_buf_cap_lt max_size
    by_cases htc : total < fcd_lib_grow_buf_cap max_size
    · have hr : r.clean = true := hclean r (List.mem_cons_self _ _)
      simp only [Round.clean, Bool.and_eq_true] at hr
      obtain ⟨blk1, size1, hg, hl1, ht1, hs1, hm1, hsz, -⟩ :=
        grow_step r.alloc b max_size total hr.1 hmod hle hlt hblk htc
      have hcount : size_sub size1 total = size1 - total := by
        unfold size_sub
        unfold SIZE_MOD at *
        have : total % 2 ^ 64 = total := Nat.mod_eq_of_lt (by omega)
        rw [this]
        omega
      obtain ⟨o, more, ho, hret, hdata, hsrc⟩ :=
        fcd_lib_read_clean r.read src (size_sub size1 total) timeout hr.2
      rw [hcount] at ho hret hdata hsrc
      generalize hn : min (more + 1) (min (size1 - total) src.length) = n at hret hdata hsrc
      have hn1 : n ≤ size1 - total := by omega
      have hn2 : n ≤ src.length := by omega
      have hn3 : 0 < n := by omega
      have hdl : o.data.length = n := by rw [hdata, List.length_take]; omega
      have hnneg : ¬ (o.ret < 0) := by rw [hret]; omega
      have htot : size_add total (size_of_ssize o.ret) = total + n := by
        rw [hret, size_of_ssize_cast n (by unfold SIZE_MOD at *; omega)]
        unfold size_add
        exact Nat.mod_eq_of_lt (by omega)
      have hretne : o.ret ≠ 0 := by rw [hret]; omega
      simp only [fcd_lib_read_all_loop, hg, hcount, ho, store, Option.map_some', hnneg, htot,
        lt_self_iff_false, if_false, hretne, ne_eq, not_false_eq_true, if_true]
      have hstl : (blk1.take total ++ o.data ++ blk1.drop (total + o.data.length)).length
          = size1 := by
        rw [store_length _ _ _ (by omega), hl1]
      exact ih o.src ⟨some (blk1.take total ++ o.data ++ blk1.drop (total + o.data.length)), size1⟩
        o.timeout (total + n)
        (fun r' hr' => hclean r' (List.mem_cons_of_mem _ hr'))
        (by rw [hsrc, List.length_drop]; simp only [List.length_cons] at hlen; omega)
        hm1 (show total + n ≤ size1 by omega) (show size1 < total + n + 2000 by omega)
        (Or.inr ⟨_, rfl, hstl⟩) (show size1 ≤ _ by omega)
        (by rw [hsrc, List.length_drop]; omega)
    · have ht : total = b.buf_size := by omega
      have hnew : fcd_lib_grow_buf_new_size b > fcd_lib_grow_buf_cap max_size := by
        unfold fcd_lib_grow_buf_new_size FCD_LIB_BUF_CHUNK
        split_ifs with h
        · have h0 : b.buf_size = 0 := by
            rcases h with h | h
            · rcases hblk with ⟨_, h0⟩ | ⟨blk, hb, _⟩
              · exact h0
              · rw [h] at hb; cases hb
            · exact h
          omega
        · unfold size_add
          rw [Nat.mod_eq_of_lt (by omega)]
          omega
      refine ⟨⟨-4, b, src, timeout⟩, ?_, rfl⟩
      simp only [fcd_lib_read_all_loop, if_pos ht, fcd_lib_grow_buf, if_pos hnew]
      simp

/-- A run of `fcd_lib_cmd_output` in which the spawn, the read, the close and the
wait succeed and the child exited normally returns what `fcd_lib_read_all`
returned and stores the exit status. -/
theorem fcd_lib_cmd_output_read_ok (s : ProcScript) (status : Int) (b : InBuf)
    (max_size : Nat) (timeout : Timespec) (ra : ReadAllOut)
    (hpipe : s.pipe2 ≠ none) (hfork : s.fork ≠ -1) (hchild : s.fork ≠ 0)
    (hcw : s.close_w = true)
    (hread : fcd_lib_read_all s.rounds s.src b max_size timeout = some ra)
    (hra : 0 ≤ ra.ret) (hcr : s.close_r = true) (hwait : 0 ≤ s.wait_ret)
    (he : WIFEXITED s.wait_status = true) :
    ∃ o, fcd_lib_cmd_output s status b max_size timeout = some o ∧
      o.outcome = .ret ra.ret ∧ o.status = WEXITSTATUS s.wait_status := by
  have hr : ¬ ra.ret < 0 := by omega
  have hw : ¬ s.wait_ret < 0 := by omega
  unfold fcd_lib_cmd_output fcd_lib_cmd_spawn
  simp [hpipe, hfork, hchild, hcw, hread, hr, hcr, hw, he]

/-- A run of `fcd_lib_cmd_output` in which the spawn succeeds and the read fails
returns what `fcd_lib_read_all` returned. -/
theorem fcd_lib_cmd_output_read_failed (s : ProcScript) (status : Int) (b : InBuf)
    (max_size : Nat) (timeout : Timespec) (ra : ReadAllOut)
    (hpipe : s.pipe2 ≠ none) (hfork : s.fork ≠ -1) (hchild : s.fork ≠ 0)
    (hcw : s.close_w = true)
    (hread : fcd_lib_read_all s.rounds s.src b max_size timeout = some ra)
    (hra : ra.ret < 0) :
    ∃ o, fcd_lib_cmd_output s status b max_size timeout = some o ∧
      o.outcome = .ret ra.ret := by
  unfold fcd_lib_cmd_output fcd_lib_cmd_spawn
  simp [hpipe, hfork, hchild, hcw, hread, hra]

/-- Claim C2: started on an empty buffer, with no timeout, cancellation or error
(every round of the script is clean, and the script has a round for every read
the call can make) and no cap hit (the realized cap admits `(k + 1)` chunks),
`fcd_lib_read_all` on a source that delivers exactly `k * 2000` bytes and then
end of file returns `k * 2000`, the buffer holds those bytes followed by a 0 at
index `k * 2000`, and that index lies inside the capacity; on a source that
delivers `k * 2000 + 1` bytes the capacity ends at `(k + 1) * 2000`.  This holds
however the reads split the data (`deliver`) and however often they are
retried.  The byte counts are below `2 ^ 63`, the range of the `ssize_t`
result. -/
theorem fcd_lib_read_all_chunk_multiple (k : Nat) (rounds : List Round) (src : List Nat)
    (max_size : Nat) (timeout : Timespec)
    (hclean : ∀ r ∈ rounds, r.clean = true) (hlen : src.length < rounds.length)
    (hcap : (k + 1) * FCD_LIB_BUF_CHUNK ≤ fcd_lib_grow_buf_cap max_size)
    (hfit : k * FCD_LIB_BUF_CHUNK + 1 < 2 ^ 63) :
    (src.length = k * FCD_LIB_BUF_CHUNK →
      ∃ o blk, fcd_lib_read_all rounds src ⟨none, 0⟩ max_size timeout = some o ∧
        o.ret = ((k * FCD_LIB_BUF_CHUNK : Nat) : Int) ∧
        o.buf.buf = some blk ∧
        blk.take (k * FCD_LIB_BUF_CHUNK) = src ∧
        blk.get? (k * FCD_LIB_BUF_CHUNK) = some 0 ∧
        k * FCD_LIB_BUF_CHUNK < o.buf.buf_size ∧
        blk.length = o.buf.buf_size ∧
        o.buf.buf_size = (k + 1) * FCD_LIB_BUF_CHUNK) ∧
    (src.length = k * FCD_LIB_BUF_CHUNK + 1 →
      ∃ o, fcd_lib_read_all rounds src ⟨none, 0⟩ max_size timeout = some o ∧
        o.ret = ((k * FCD_LIB_BUF_CHUNK + 1 : Nat) : Int) ∧
        o.buf.buf_size = (k + 1) * FCD_LIB_BUF_CHUNK) := by
  unfold FCD_LIB_BUF_CHUNK at *
  constructor
  · intro hsrc
    obtain ⟨o, blk, ho, hret, hsz, hbuf, hblen, htake, hget, -⟩ :=
      fcd_lib_read_all_loop_clean max_size rounds src ⟨none, 0⟩ timeout 0 hclean hlen
        (by rfl) (by simp) (by simp) (Or.inl ⟨rfl, rfl⟩) (by omega) (by omega)
    simp only [Nat.zero_add, hsrc] at hret hsz htake hget
    have hsz2 : o.buf.buf_size = (k + 1) * 2000 := by rw [hsz]; omega
    refine ⟨o, blk, ho, hret, hbuf, ?_, hget, by omega, hblen, hsz2⟩
    simpa using htake
  · intro hsrc
    obtain ⟨o, blk, ho, hret, hsz, -⟩ :=
      fcd_lib_read_all_loop_clean max_size rounds src ⟨none, 0⟩ timeout 0 hclean hlen
        (by rfl) (by simp) (by simp) (Or.inl ⟨rfl, rfl⟩) (by omega) (by omega)
    simp only [Nat.zero_add, hsrc] at hret hsz
    exact ⟨o, ho, hret, by rw [hsz]; omega⟩

theorem retry_round_clean : ∀ r ∈ List.replicate 2001 retry_round, r.clean = true := by
  intro r hr
  rw [List.eq_of_mem_replicate hr]
  decide

theorem clean_round_clean : ∀ r ∈ List.replicate 2001 clean_round, r.clean = true := by
  intro r hr
  rw [List.eq_of_mem_replicate hr]
  decide

/-- Witness of C2: 2000 bytes delivered one at a time, each read retried twice,
with `max_size` 4000. -/
theorem fcd_lib_read_all_chunk_multiple_witness :
    ∃ o blk, fcd_lib_read_all (List.replicate 2001 retry_round) (List.replicate 2000 65)
        ⟨none, 0⟩ 4000 ⟨5, 0⟩ = some o ∧
      o.ret = ((1 * FCD_LIB_BUF_CHUNK : Nat) : Int) ∧
      o.buf.buf = some blk ∧
      blk.take (1 * FCD_LIB_BUF_CHUNK) = List.replicate 2000 65 ∧
      blk.get? (1 * FCD_LIB_BUF_CHUNK) = some 0 ∧
      1 * FCD_LIB_BUF_CHUNK < o.buf.buf_size ∧
      blk.length = o.buf.buf_size ∧
      o.buf.buf_size = (1 + 1) * FCD_LIB_BUF_CHUNK :=
  (fcd_lib_read_all_chunk_multiple 1 (List.replicate 2001 retry_round)
    (List.replicate 2000 65) 4000 ⟨5, 0⟩ retry_round_clean
    (by simp only [List.length_replicate]; decide) (by decide)
    (by decide)).1 (by simp only [List.length_replicate]; decide)

/-- Claim C3 as stated fails: with `max_size = 2000`, a source that delivers
2000 bytes (so `n ≤ max_size`) and then end of file, with no timeout,
cancellation or error, makes `fcd_lib_read_all` return -4, and so
`fcd_lib_cmd_output`: the buffer is full after 2000 bytes and the growth that
would make room for more (and for the terminator) exceeds the cap. -/
theorem fcd_lib_read_all_full_cap_rejected :
    (List.replicate 2000 65).length ≤ 2000 ∧
      (∀ r ∈ List.replicate 2001 clean_round, r.clean = true) ∧
      (fcd_lib_read_all (List.replicate 2001 clean_round) (List.replicate 2000 65)
        ⟨none, 0⟩ 2000 ⟨5, 0⟩).map (fun o => o.ret) = some (-4) ∧
      (fcd_lib_cmd_output
        (sample_run (List.replicate 2001 clean_round) (List.replicate 2000 65) 0 0) 0
        ⟨none, 0⟩ 2000 ⟨5, 0⟩).map (fun o => o.outcome) = some (Outcome.ret (-4)) := by
  refine ⟨by simp only [List.length_replicate]; decide, clean_round_clean, ?_⟩
  obtain ⟨o, ho, hret⟩ :=
    fcd_lib_read_all_loop_cap 2000 (List.replicate 2001 clean_round) (List.replicate 2000 65)
      ⟨none, 0⟩ ⟨5, 0⟩ 0 clean_round_clean (by simp only [List.length_replicate]; decide)
      (by rfl) (by simp) (by simp) (Or.inl ⟨rfl, rfl⟩) (by simp)
      (by rw [List.length_replicate]; decide) (by decide)
  have hra : fcd_lib_read_all (List.replicate 2001 clean_round) (List.replicate 2000 65)
      ⟨none, 0⟩ 2000 ⟨5, 0⟩ = some o := ho
  constructor
  · rw [hra, Option.map_some', hret]
  · obtain ⟨c, hc, hout⟩ :=
      fcd_lib_cmd_output_read_failed
        (sample_run (List.replicate 2001 clean_round) (List.replicate 2000 65) 0 0) 0
        ⟨none, 0⟩ 2000 ⟨5, 0⟩ o (by decide) (by decide) (by decide) rfl hra
        (by rw [hret]; decide)
    rw [hc, Option.map_some', hout, hret]

/-- Claim C3, amended: for `max_size ≤ SIZE_MAX - 1999`, a source that delivers
`n` bytes and then end of file, with `n` below `max_size` rounded up to a
multiple of 2000 (and below `2 ^ 63`), with no timeout, cancellation or error
and an empty buffer at the start, makes `fcd_lib_read_all` return `n`, not -4,
and so does `fcd_lib_cmd_output` when the spawn, the close and the wait succeed
and the child exited normally.  Every `n < max_size` qualifies, and
`n = max_size` when `max_size` is not a multiple of 2000. -/
theorem fcd_lib_read_all_below_cap (rounds : List Round) (src : List Nat) (max_size : Nat)
    (timeout : Timespec)
    (hclean : ∀ r ∈ rounds, r.clean = true) (hlen : src.length < rounds.length)
    (hmax : max_size + 1999 < SIZE_MOD)
    (hn : src.length
      < (max_size + FCD_LIB_BUF_CHUNK - 1) / FCD_LIB_BUF_CHUNK * FCD_LIB_BUF_CHUNK)
    (hfit : src.length < 2 ^ 63) :
    (∃ o, fcd_lib_read_all rounds src ⟨none, 0⟩ max_size timeout = some o ∧
      o.ret = (src.length : Int) ∧ o.ret ≠ -4) ∧
    (∀ (s : ProcScript) (status : Int), s.rounds = rounds → s.src = src →
      s.pipe2 ≠ none → s.fork ≠ -1 → s.fork ≠ 0 → s.close_w = true → s.close_r = true →
      0 ≤ s.wait_ret → WIFEXITED s.wait_status = true →
      ∃ o, fcd_lib_cmd_output s status ⟨none, 0⟩ max_size timeout = some o ∧
        o.outcome = .ret (src.length : Int)) ∧
    (∀ n, n < max_size ∨ (n = max_size ∧ max_size % FCD_LIB_BUF_CHUNK ≠ 0) →
      n < (max_size + FCD_LIB_BUF_CHUNK - 1) / FCD_LIB_BUF_CHUNK * FCD_LIB_BUF_CHUNK) := by
  have hread : ∃ o, fcd_lib_read_all rounds src ⟨none, 0⟩ max_size timeout = some o ∧
      o.ret = (src.length : Int) := by
    rw [← fcd_lib_grow_buf_cap_in_range max_size hmax] at hn
    obtain ⟨o, blk, ho, hret, -⟩ :=
      fcd_lib_read_all_loop_clean max_size rounds src ⟨none, 0⟩ timeout 0 hclean hlen
        (by rfl) (by simp) (by simp) (Or.inl ⟨rfl, rfl⟩) (by omega) (by omega)
    simp only [Nat.zero_add] at hret
    exact ⟨o, ho, hret⟩
  obtain ⟨ra, hra, hret⟩ := hread
  refine ⟨⟨ra, hra, hret, by rw [hret]; omega⟩, ?_, ?_⟩
  · intro s status hrounds hsrc hpipe hfork hchild hcw hcr hwait he
    subst hrounds hsrc
    obtain ⟨o, ho, hout, -⟩ :=
      fcd_lib_cmd_output_read_ok s status ⟨none, 0⟩ max_size timeout ra hpipe hfork hchild
        hcw hra (by rw [hret]; omega) hcr hwait he
    exact ⟨o, ho, by rw [hout, hret]⟩
  · intro n h
    unfold FCD_LIB_BUF_CHUNK at *
    omega

/-- Witness of the amended C3: the 2000 bytes that `max_size = 2000` rejects are
accepted with `max_size = 2001`. -/
theorem fcd_lib_read_all_below_cap_witness :
    ∃ o, fcd_lib_read_all (List.replicate 2001 clean_round) (List.replicate 2000 65)
        ⟨none, 0⟩ 2001 ⟨5, 0⟩ = some o ∧
      o.ret = ((List.replicate 2000 65).length : Int) ∧ o.ret ≠ -4 :=
  (fcd_lib_read_all_below_cap (List.replicate 2001 clean_round) (List.replicate 2000 65)
    2001 ⟨5, 0⟩ clean_round_clean (by simp only [List.length_replicate]; decide) (by decide)
    (by rw [List.length_replicate]; decide) (by rw [List.length_replicate]; decide)).1

/-! ## Deadline clock -/

theorem fcd_lib_deadline_toNs (t now : Timespec) (ht : t.Normalized) (hn : now.Normalized) :
    ∃ d, fcd_lib_deadline (some now) t = some d ∧ d.Normalized ∧
      d.toNs = now.toNs + t.toNs := by
  obtain ⟨ts, tn⟩ := t
  obtain ⟨ns, nn⟩ := now
  simp only [Timespec.Normalized] at ht hn
  by_cases h : nn + tn ≥ 1000000000
  · refine ⟨⟨ns + ts + 1, nn + tn - 1000000000⟩, ?_, ?_, ?_⟩
    · simp [fcd_lib_deadline, h]
    · simp only [Timespec.Normalized]; omega
    · simp only [Timespec.toNs]; omega
  · refine ⟨⟨ns + ts, nn + tn⟩, ?_, ?_, ?_⟩
    · simp [fcd_lib_deadline, h]
    · simp only [Timespec.Normalized]; omega
    · simp only [Timespec.toNs]; omega

theorem fcd_lib_remaining_toNs (d now : Timespec) (hd : d.Normalized) (hn : now.Normalized) :
    fcd_lib_remaining (some now) d = some (Timespec.ofNs (max 0 (d.toNs - now.toNs))) := by
  obtain ⟨ds, dn⟩ := d
  obtain ⟨ns, nn⟩ := now
  simp only [Timespec.Normalized] at hd hn
  simp only [fcd_lib_remaining, Timespec.toNs, Timespec.ofNs]
  by_cases h1 : dn - nn < 0
  · by_cases h2 : ds - ns - 1 < 0
    · simp only [h1, h2, if_true, Option.some.injEq, Timespec.mk.injEq]
      have : max 0 (ds * 1000000000 + dn - (ns * 1000000000 + nn)) = 0 := by omega
      rw [this]; simp
    · simp only [h1, h2, if_true, if_false, Option.some.injEq, Timespec.mk.injEq]
      have : max 0 (ds * 1000000000 + dn - (ns * 1000000000 + nn))
          = ds * 1000000000 + dn - (ns * 1000000000 + nn) := by omega
      rw [this]; omega
  · by_cases h2 : ds - ns < 0
    · simp only [h1, h2, if_true, if_false, Option.some.injEq, Timespec.mk.injEq]
      have : max 0 (ds * 1000000000 + dn - (ns * 1000000000 + nn)) = 0 := by omega
      rw [this]; simp
    · simp only [h1, h2, if_false, Option.some.injEq, Timespec.mk.injEq]
      have : max 0 (ds * 1000000000 + dn - (ns * 1000000000 + nn))
          = ds * 1000000000 + dn - (ns * 1000000000 + nn) := by omega
      rw [this]; omega

theorem Timespec.ofNs_toNs (t : Timespec) (ht : t.Normalized) : Timespec.ofNs t.toNs = t := by
  obtain ⟨ts, tn⟩ := t
  simp only [Timespec.Normalized] at ht
  simp only [Timespec.ofNs, Timespec.toNs, Timespec.mk.injEq]
  omega

theorem Timespec.toNs_ofNs (n : Int) : (Timespec.ofNs n).toNs = n := by
  simp only [Timespec.ofNs, Timespec.toNs]
  omega

/-- Claim C4: for a normalized non-negative timeout `t` and normalized clock
readings `now ≤ now'`, `fcd_lib_remaining` at time `now'` on the deadline that
`fcd_lib_deadline` computed at time `now` is `max 0 (t - (now' - now))` as a
normalized pair; it is `t` when `now' = now`, neither field is negative, and it
does not increase when the clock advances further (as a time, and so in the
lexicographic order of the pairs). -/
theorem fcd_lib_remaining_after_deadline (t now now' : Timespec) (ht : t.Normalized) (ht0 : 0 ≤ t.tv_sec)
    (hn : now.Normalized) (hn' : now'.Normalized) (hle : now.toNs ≤ now'.toNs) :
    ∃ d r, fcd_lib_deadline (some now) t = some d ∧
      fcd_lib_remaining (some now') d = some r ∧
      r = Timespec.ofNs (max 0 (t.toNs - (now'.toNs - now.toNs))) ∧
      (now' = now → r = t) ∧
      0 ≤ r.tv_sec ∧ 0 ≤ r.tv_nsec ∧ r.tv_nsec < 1000000000 ∧
      ∀ now'' : Timespec, now''.Normalized → now'.toNs ≤ now''.toNs →
        ∃ r'', fcd_lib_remaining (some now'') d = some r'' ∧ r''.toNs ≤ r.toNs ∧
          (r''.tv_sec < r.tv_sec ∨ (r''.tv_sec = r.tv_sec ∧ r''.tv_nsec ≤ r.tv_nsec)) := by
  obtain ⟨d, hd, hdn, hdns⟩ := fcd_lib_deadline_toNs t now ht hn
  have ht0' : 0 ≤ t.toNs := by
    have := ht.1
    simp only [Timespec.toNs]; omega
  refine ⟨d, _, hd, fcd_lib_remaining_toNs d now' hdn hn', ?_, ?_, ?_, ?_, ?_, ?_⟩
  · rw [hdns]; congr 2; omega
  · intro h
    subst h
    rw [hdns]
    have : max 0 (now'.toNs + t.toNs - now'.toNs) = t.toNs := by omega
    rw [this]
    exact Timespec.ofNs_toNs t ht
  · simp only [Timespec.ofNs]; omega
  · simp only [Timespec.ofNs]; omega
  · simp only [Timespec.ofNs]; omega
  · intro now'' hn'' hle'
    refine ⟨_, fcd_lib_remaining_toNs d now'' hdn hn'', ?_, ?_⟩
    · rw [Timespec.toNs_ofNs, Timespec.toNs_ofNs]; omega
    · simp only [Timespec.ofNs]; omega

/-- Witness of C4: a timeout of 2.5 s set at 100.9 s leaves 1.8 s at 101.6 s. -/
theorem fcd_lib_remaining_after_deadline_witness :
    ∃ d r, fcd_lib_deadline (some ⟨100, 900000000⟩) ⟨2, 500000000⟩ = some d ∧
      fcd_lib_remaining (some ⟨101, 600000000⟩) d = some r ∧ r = ⟨1, 800000000⟩ := by
  obtain ⟨d, r, hd, hr, hreq, -⟩ :=
    fcd_lib_remaining_after_deadline ⟨2, 500000000⟩ ⟨100, 900000000⟩ ⟨101, 600000000⟩
      ⟨by decide, by decide⟩ (by decide) ⟨by decide, by decide⟩ ⟨by decide, by decide⟩
      (by decide)
  exact ⟨d, r, hd, hr, by rw [hreq]; decide⟩

/-! ## Process executor -/

theorem cmd_status_kill (s : ProcScript) (timeout : Timespec) :
    KillDiscipline (fcd_lib_cmd_status s timeout).1 (fcd_lib_cmd_status s timeout).2.2 := by
  unfold KillDiscipline fcd_lib_cmd_status fcd_lib_cmd_spawn
  by_cases hf : s.fork = -1 <;> by_cases hf0 : s.fork = 0 <;>
    by_cases hw : s.wait_ret < 0 <;> by_cases he : WIFEXITED s.wait_status = true <;>
    simp [hf, hf0, hw, he]
  all_goals (intros; omega)

theorem cmd_output_kill (s : ProcScript) (status : Int) (b : InBuf) (max_size : Nat)
    (timeout : Timespec) (o : CmdOut)
    (h : fcd_lib_cmd_output s status b max_size timeout = some o) :
    KillDiscipline o.outcome o.trace := by
  unfold fcd_lib_cmd_output fcd_lib_cmd_spawn at h
  unfold KillDiscipline
  by_cases hp : s.pipe2 = none
  · simp [hp] at h
    subst h
    simp
  by_cases hf : s.fork = -1
  · simp [hp, hf] at h
    subst h
    simp
    intros; omega
  by_cases hf0 : s.fork = 0
  · simp [hp, hf, hf0] at h
    subst h
    simp
  by_cases hcw : s.close_w = true
  · rcases hra : fcd_lib_read_all s.rounds s.src b max_size timeout with _ | ra
    · simp [hp, hf, hf0, hcw, hra] at h
    · by_cases hr : ra.ret < 0
      · simp [hp, hf, hf0, hcw, hra, hr] at h
        subst h
        simp
        intros; omega
      by_cases hcr : s.close_r = true
      · by_cases hw : s.wait_ret < 0
        · simp [hp, hf, hf0, hcw, hra, hr, hcr, hw] at h
          subst h
          simp
          exact ⟨by intros; omega, hw⟩
        · by_cases he : WIFEXITED s.wait_status = true
          · simp [hp, hf, hf0, hcw, hra, hr, hcr, hw, he] at h
            subst h
            simp
            intros; omega
          · simp [hp, hf, hf0, hcw, hra, hr, hcr, hw, he] at h
            subst h
            simp
            intros; omega
      · simp [hp, hf, hf0, hcw, hra, hr, hcr] at h
        subst h
        simp
        intros; omega
  · by_cases hcr : s.close_r = true
    · simp [hp, hf, hf0, hcw, hcr] at h
      subst h
      simp
      intros; omega
    · simp [hp, hf, hf0, hcw, hcr] at h
      subst h
      simp

/-- Claim C5: in every run of `fcd_lib_cmd_output` and of `fcd_lib_cmd_status`,
whatever the underlying operations do: once the child has been spawned, a run
that returns after `fcd_lib_read_all` failed (error, timeout, cancel, cap
exceeded), after a `close` failed, or after `fcd_proc_wait` failed makes
`fcd_proc_kill` for that child its last call; and a run in which
`fcd_proc_wait` succeeded requests no kill. -/
theorem fcd_lib_cmd_kill_discipline (s : ProcScript) (status : Int) (b : InBuf)
    (max_size : Nat) (timeout : Timespec) :
    (∀ o, fcd_lib_cmd_output s status b max_size timeout = some o →
      KillDiscipline o.outcome o.trace) ∧
    KillDiscipline (fcd_lib_cmd_status s timeout).1 (fcd_lib_cmd_status s timeout).2.2 :=
  ⟨fun o h => cmd_output_kill s status b max_size timeout o h, cmd_status_kill s timeout⟩

/-- Witness of C5: a run of `fcd_lib_cmd_output` whose read fails (the
allocation of the buffer fails) returns -1 after killing child 77, and a run of
`fcd_lib_cmd_status` whose wait times out ends with the kill of child 77. -/
theorem fcd_lib_cmd_kill_discipline_witness :
    (fcd_lib_cmd_output (sample_run [failed_alloc_round] [] 0 0) 0 ⟨none, 0⟩ 100 ⟨5, 0⟩).map
        (fun o => (o.outcome, o.trace.getLast?))
      = some (Outcome.ret (-1), some (ProcEv.kill 77)) ∧
    (fcd_lib_cmd_status (sample_run [] [] (-2) 0) ⟨5, 0⟩).2.2.getLast?
      = some (ProcEv.kill 77) := by
  have h1 := (fcd_lib_cmd_kill_discipline (sample_run [failed_alloc_round] [] 0 0) 0
    ⟨none, 0⟩ 100 ⟨5, 0⟩).1
  have h2 := (fcd_lib_cmd_kill_discipline (sample_run [] [] (-2) 0) 0
    ⟨none, 0⟩ 100 ⟨5, 0⟩).2
  obtain ⟨o, ho, hout, hfork, hread⟩ :
      ∃ o, fcd_lib_cmd_output (sample_run [failed_alloc_round] [] 0 0) 0 ⟨none, 0⟩ 100 ⟨5, 0⟩
          = some o ∧ o.outcome = .ret (-1) ∧ ProcEv.fork 77 ∈ o.trace ∧
          ProcEv.read_all (-1) ∈ o.trace :=
    ⟨_, rfl, rfl, by decide, by decide⟩
  constructor
  · rw [ho, Option.map_some', hout,
      (h1 o ho).1 77 (-1) hfork (by decide) (by decide) hout
        (Or.inl ⟨-1, by decide, hread⟩)]
  · exact h2.1 77 (-2) (by decide) (by decide) (by decide) rfl
      (Or.inr (Or.inr ⟨-2, by decide, by decide⟩))

theorem WEXITSTATUS_range (w : Int) : 0 ≤ WEXITSTATUS w ∧ WEXITSTATUS w ≤ 255 := by
  unfold WEXITSTATUS
  have h1 : (w % 2 ^ 32).toNat &&& 0xff00 ≤ 0xff00 := Nat.and_le_right
  have h2 : ((w % 2 ^ 32).toNat &&& 0xff00) >>> 8 = ((w % 2 ^ 32).toNat &&& 0xff00) / 2 ^ 8 :=
    Nat.shiftRight_eq_div_pow _ _
  rw [h2]
  omega

theorem cmd_status_nonneg (s : ProcScript) (timeout : Timespec) (v : Int)
    (h : (fcd_lib_cmd_status s timeout).1 = .ret v) :
    (0 ≤ v ↔ s.fork ≠ -1 ∧ 0 ≤ s.wait_ret ∧ WIFEXITED s.wait_status = true) ∧
      (0 ≤ v → v = WEXITSTATUS s.wait_status ∧ v ≤ 255) := by
  have hb := WEXITSTATUS_range s.wait_status
  unfold fcd_lib_cmd_status fcd_lib_cmd_spawn at h
  by_cases hf : s.fork = -1
  · simp [hf] at h
    subst h
    simp [hf]
  by_cases hf0 : s.fork = 0
  · simp [hf, hf0] at h
  by_cases hw : s.wait_ret < 0
  · simp [hf, hf0, hw] at h
    subst h
    simp [hf]
    constructor <;> intros <;> omega
  by_cases he : WIFEXITED s.wait_status = true
  · simp [hf, hf0, hw, he] at h
    subst h
    simp [hf, he, hb]
    omega
  · simp [hf, hf0, hw, he] at h
    subst h
    simp [hf, he]

/-- Claim C6: when spawn, read, close and wait all succeed, then for the raw
status `w` stored by the wait: if `w` denotes a normal exit (`WIFEXITED`),
`fcd_lib_cmd_output` returns the number of bytes read and stores
`WEXITSTATUS w` in `*status`, and `fcd_lib_cmd_status` returns `WEXITSTATUS w`,
which lies in 0..255; otherwise both return -1.  A child that writes "OK" (the
bytes 79, 75) and exits with status 3 yields the result 2 and the status 3.  For
every run of `fcd_lib_cmd_status`, the result is non-negative exactly when the
spawn and the wait succeeded and the child exited normally, and it is then the
exit status: it never coincides with an error code. -/
theorem fcd_lib_cmd_exit_status (s : ProcScript) (status : Int) (b : InBuf)
    (max_size : Nat) (timeout : Timespec) (ra : ReadAllOut)
    (hpipe : s.pipe2 ≠ none) (hfork : s.fork ≠ -1) (hchild : s.fork ≠ 0)
    (hcw : s.close_w = true)
    (hread : fcd_lib_read_all s.rounds s.src b max_size timeout = some ra)
    (hra : 0 ≤ ra.ret) (hcr : s.close_r = true) (hwait : 0 ≤ s.wait_ret) :
    0 ≤ WEXITSTATUS s.wait_status ∧ WEXITSTATUS s.wait_status ≤ 255 ∧
    (WIFEXITED s.wait_status = true →
      (∃ o, fcd_lib_cmd_output s status b max_size timeout = some o ∧
        o.outcome = .ret ra.ret ∧ o.status = WEXITSTATUS s.wait_status) ∧
      (fcd_lib_cmd_status s timeout).1 = .ret (WEXITSTATUS s.wait_status)) ∧
    (WIFEXITED s.wait_status = false →
      (∃ o, fcd_lib_cmd_output s status b max_size timeout = some o ∧
        o.outcome = .ret (-1)) ∧
      (fcd_lib_cmd_status s timeout).1 = .ret (-1)) ∧
    (s.src = [79, 75] → b = ⟨none, 0⟩ → (∀ r ∈ s.rounds, r.clean = true) →
      2 < s.rounds.length → 2 < fcd_lib_grow_buf_cap max_size →
      WIFEXITED s.wait_status = true → WEXITSTATUS s.wait_status = 3 →
      ∃ o, fcd_lib_cmd_output s status b max_size timeout = some o ∧
        o.outcome = .ret 2 ∧ o.status = 3) ∧
    (∀ (s' : ProcScript) (t' : Timespec) (v : Int),
      (fcd_lib_cmd_status s' t').1 = .ret v →
      (0 ≤ v ↔ s'.fork ≠ -1 ∧ 0 ≤ s'.wait_ret ∧ WIFEXITED s'.wait_status = true) ∧
      (0 ≤ v → v = WEXITSTATUS s'.wait_status ∧ v ≤ 255)) := by
  have hr : ¬ ra.ret < 0 := by omega
  have hw : ¬ s.wait_ret < 0 := by omega
  have hout : WIFEXITED s.wait_status = true →
      ∃ o, fcd_lib_cmd_output s status b max_size timeout = some o ∧
        o.outcome = .ret ra.ret ∧ o.status = WEXITSTATUS s.wait_status :=
    fcd_lib_cmd_output_read_ok s status b max_size timeout ra hpipe hfork hchild hcw hread
      hra hcr hwait
  refine ⟨(WEXITSTATUS_range _).1, (WEXITSTATUS_range _).2, ?_, ?_, ?_, ?_⟩
  · intro he
    refine ⟨hout he, ?_⟩
    unfold fcd_lib_cmd_status fcd_lib_cmd_spawn
    simp [hfork, hchild, hw, he]
  · intro he
    constructor
    · unfold fcd_lib_cmd_output fcd_lib_cmd_spawn
      simp [hpipe, hfork, hchild, hcw, hread, hr, hcr, hw, he]
    · unfold fcd_lib_cmd_status fcd_lib_cmd_spawn
      simp [hfork, hchild, hw, he]
  · intro hsrc hb hclean hlen hcap he h3
    obtain ⟨o, ho, hret, hst⟩ := hout he
    subst hb
    obtain ⟨o', blk, ho', hret', -⟩ :=
      fcd_lib_read_all_loop_clean max_size s.rounds s.src ⟨none, 0⟩ timeout 0 hclean
        (by rw [hsrc]; exact hlen) (by rfl) (by simp) (by simp) (Or.inl ⟨rfl, rfl⟩)
        (by rw [hsrc]; simpa using hcap) (by rw [hsrc]; norm_num)
    have : ra = o' := by
      have := hread.symm.trans ho'
      simpa [fcd_lib_read_all] using this
    refine ⟨o, ho, ?_, by rw [hst, h3]⟩
    rw [hret, this, hret', hsrc]
    rfl
  · intro s' t' v h
    exact cmd_status_nonneg s' t' v h

/-- Witness of C6: the child writes "OK" and exits with status 3 (raw status
768); the result is 2 and the stored status is 3. -/
theorem fcd_lib_cmd_exit_status_witness :
    (fcd_lib_cmd_output (sample_run (List.replicate 3 clean_round) [79, 75] 0 768) 0
        ⟨none, 0⟩ 100 ⟨5, 0⟩).map (fun o => (o.outcome, o.status))
      = some (Outcome.ret 2, 3) := by
  have hclean : ∀ r ∈ List.replicate 3 clean_round, r.clean = true := by decide
  obtain ⟨ra, blk, hra, hret, -⟩ :=
    fcd_lib_read_all_loop_clean 100 (List.replicate 3 clean_round) [79, 75] ⟨none, 0⟩
      ⟨5, 0⟩ 0 hclean (by decide) (by rfl) (by decide) (by decide) (Or.inl ⟨rfl, rfl⟩)
      (by decide) (by decide)
  obtain ⟨-, -, -, -, hok, -⟩ :=
    fcd_lib_cmd_exit_status (sample_run (List.replicate 3 clean_round) [79, 75] 0 768) 0
      ⟨none, 0⟩ 100 ⟨5, 0⟩ ra (by decide) (by decide) (by decide) rfl hra
      (by rw [hret]; decide) rfl (by decide)
  obtain ⟨o, ho, hout, hst⟩ := hok rfl rfl hclean (by decide) (by decide) (by decide)
    (by decide)
  rw [ho, Option.map_some', hout, hst]

/-! ## Status publisher -/

theorem disk_led_eq (p : Nat) (h2 : 2 ≤ p) (h : p < 2 ^ 32) : disk_led p = p - 2 := by
  unfold disk_led; omega

theorem set_disk_alerts_eq (disks : Nat → Int) (ds : List fcd_raid_disk) (i : Nat)
    (cells : Nat → List AlertReq) (c : Nat) :
    set_disk_alerts disks ds i cells c = cells c ++ disk_reqs disks c ds i := by
  induction ds generalizing i cells with
  | nil => simp [set_disk_alerts, disk_reqs]
  | cons d ds ih =>
    simp only [set_disk_alerts, disk_reqs]
    rw [ih]
    by_cases h : disk_led d.port_no = c
    · subst h
      simp [fcd_alert_update]
    · simp [Function.update_noteq (Ne.symm h), h]

theorem disk_reqs_mem (disks : Nat → Int) (ds : List fcd_raid_disk) (i j : Nat)
    (hj : j < ds.length) :
    alert_req (disks (i + j)) ∈ disk_reqs disks (disk_led (ds.get ⟨j, hj⟩).port_no) ds i := by
  induction ds generalizing i j with
  | nil => simp at hj
  | cons d ds ih =>
    cases j with
    | zero => simp [disk_reqs]
    | succ j =>
      simp only [disk_reqs, List.mem_append]
      right
      have := ih (i + 1) j (by simpa using hj)
      simpa [Nat.add_assoc, Nat.add_comm 1 j] using this

theorem disk_reqs_eq_enum (disks : Nat → Int) (c : Nat) (ds : List fcd_raid_disk) (i : Nat)
    (hport : ∀ x ∈ ds, 2 ≤ x.port_no ∧ x.port_no < 2 ^ 32) :
    disk_reqs disks c ds i
      = ((ds.enumFrom i).filter (fun p => decide (p.2.port_no - 2 = c))).map
          (fun p => if disks p.1 ≠ 0 then AlertReq.set else AlertReq.clr) := by
  induction ds generalizing i with
  | nil => rfl
  | cons x xs ih =>
    have hx := hport x (List.mem_cons_self _ _)
    simp only [disk_reqs, List.enumFrom_cons, List.filter_cons]
    rw [ih (i + 1) (fun y hy => hport y (List.mem_cons_of_mem _ hy)),
      disk_led_eq _ hx.1 hx.2]
    by_cases h : x.port_no - 2 = c
    · simp [h, alert_req]
    · simp [h]

theorem disk_reqs_eq_nil (disks : Nat → Int) (c : Nat) (ds : List fcd_raid_disk) (i : Nat)
    (h : ∀ x ∈ ds, disk_led x.port_no ≠ c) : disk_reqs disks c ds i = [] := by
  induction ds generalizing i with
  | nil => rfl
  | cons x xs ih =>
    simp only [disk_reqs]
    rw [if_neg (h x (List.mem_cons_self _ _)),
      ih (i + 1) (fun y hy => h y (List.mem_cons_of_mem _ hy))]
    rfl

theorem disk_reqs_single (disks : Nat → Int) (ds : List fcd_raid_disk) (i j : Nat)
    (hj : j < ds.length)
    (hport : ∀ x ∈ ds, 2 ≤ x.port_no ∧ x.port_no < 2 ^ 32)
    (hnd : (ds.map (fun x => x.port_no)).Nodup) :
    disk_reqs disks (disk_led (ds.get ⟨j, hj⟩).port_no) ds i = [alert_req (disks (i + j))] := by
  induction ds generalizing i j with
  | nil => simp at hj
  | cons x xs ih =>
    simp only [List.map_cons, List.nodup_cons] at hnd
    have hx := hport x (List.mem_cons_self _ _)
    have hother : ∀ y ∈ xs, disk_led y.port_no ≠ disk_led x.port_no := by
      intro y hy he
      have hyp := hport y (List.mem_cons_of_mem _ hy)
      rw [disk_led_eq _ hyp.1 hyp.2, disk_led_eq _ hx.1 hx.2] at he
      apply hnd.1
      have : y.port_no = x.port_no := by omega
      rw [← this]
      exact List.mem_map.mpr ⟨y, hy, rfl⟩
    cases j with
    | zero =>
      show disk_reqs disks (disk_led x.port_no) (x :: xs) i = [alert_req (disks (i + 0))]
      simp only [disk_reqs, if_true, Nat.add_zero]
      rw [disk_reqs_eq_nil disks _ xs (i + 1) hother]
      rfl
    | succ j =>
      have hj' : j < xs.length := by simpa using hj
      have hne : disk_led x.port_no ≠ disk_led (xs.get ⟨j, hj'⟩).port_no :=
        fun he => hother _ (List.get_mem xs j hj') he.symm
      show disk_reqs disks (disk_led (xs.get ⟨j, hj'⟩).port_no) (x :: xs) i
        = [alert_req (disks (i + (j + 1)))]
      simp only [disk_reqs, if_neg hne, List.nil_append]
      rw [ih (i + 1) j hj' (fun y hy => hport y (List.mem_cons_of_mem _ hy)) hnd.2]
      congr 3
      omega

/-- Claim C7: after `fcd_lib_set_mon_status2` (the mutex operations succeeding,
the port numbers of the disk table being at least 2), display bytes 45..64 are
the 20 bytes of `lower`; bytes 5..24 are the 20 bytes of `upper` if it was
supplied and are unchanged otherwise; every other display byte is unchanged;
the pending PWM flags are `pwm_flags`; the warn and the fail cell each received
exactly one request, set if the flag is non-zero and clear otherwise.  If
`disks` was supplied, every LED cell `c` received exactly one request for each
configured disk `i` with `port_no - 2 = c`, in the order of the table, that
request being set if `disks[i]` is non-zero and clear otherwise, and nothing
else; so the cell `port_no - 2` of disk `i` received that request, and when the
port numbers are pairwise distinct it received that request alone.  If `disks`
was not supplied, no LED cell received a request.  `fcd_lib_set_mon_status` is
the same call without upper text. -/
theorem fcd_lib_set_mon_status2_post (conf : List fcd_raid_disk) (lock_ret unlock_ret : Int)
    (mon : fcd_monitor) (upper : Option (Nat → Nat)) (lower : Nat → Nat) (warn fail : Int)
    (disks : Option (Nat → Int)) (pwm_flags : Nat)
    (hlock : lock_ret = 0) (hunlock : unlock_ret = 0)
    (hport : ∀ d ∈ conf, 2 ≤ d.port_no ∧ d.port_no < 2 ^ 32) :
    ∃ m, fcd_lib_set_mon_status2 conf lock_ret unlock_ret mon upper lower warn fail disks
        pwm_flags = some m ∧
      (∀ j, j < 20 → m.buf (45 + j) = lower j) ∧
      (∀ u, upper = some u → ∀ j, j < 20 → m.buf (5 + j) = u j) ∧
      (upper = none → ∀ j, j < 20 → m.buf (5 + j) = mon.buf (5 + j)) ∧
      (∀ i, ¬ (5 ≤ i ∧ i < 25) → ¬ (45 ≤ i ∧ i < 65) → m.buf i = mon.buf i) ∧
      m.new_pwm_flags = pwm_flags ∧
      m.sys_warn = mon.sys_warn ++ [if warn ≠ 0 then AlertReq.set else AlertReq.clr] ∧
      m.sys_fail = mon.sys_fail ++ [if fail ≠ 0 then AlertReq.set else AlertReq.clr] ∧
      (∀ d, disks = some d → ∀ c, m.disk_alerts c = mon.disk_alerts c ++
        ((conf.enum.filter (fun p => decide (p.2.port_no - 2 = c))).map
          (fun p => if d p.1 ≠ 0 then AlertReq.set else AlertReq.clr))) ∧
      (∀ d, disks = some d → ∀ (i : Nat) (hi : i < conf.length),
        ∃ l, m.disk_alerts ((conf.get ⟨i, hi⟩).port_no - 2)
            = mon.disk_alerts ((conf.get ⟨i, hi⟩).port_no - 2) ++ l ∧
          (if d i ≠ 0 then AlertReq.set else AlertReq.clr) ∈ l) ∧
      (∀ d, disks = some d → (conf.map (fun x => x.port_no)).Nodup →
        ∀ (i : Nat) (hi : i < conf.length),
          m.disk_alerts ((conf.get ⟨i, hi⟩).port_no - 2)
            = mon.disk_alerts ((conf.get ⟨i, hi⟩).port_no - 2)
                ++ [if d i ≠ 0 then AlertReq.set else AlertReq.clr]) ∧
      (disks = none → m.disk_alerts = mon.disk_alerts) ∧
      fcd_lib_set_mon_status conf lock_ret unlock_ret mon lower warn fail disks pwm_flags
        = fcd_lib_set_mon_status2 conf lock_ret unlock_ret mon none lower warn fail disks
            pwm_flags := by
  subst hlock hunlock
  refine ⟨_, by simp only [fcd_lib_set_mon_status2]; rfl, ?_, ?_, ?_, ?_, ?_, ?_, ?_, ?_, ?_, ?_,
    ?_, rfl⟩
  · intro j hj
    cases upper <;> cases disks <;> simp only [memcpy] <;> split_ifs <;>
      first | rfl | (exfalso; omega) | (congr 1; omega)
  · intro u hu j hj
    subst hu
    cases disks <;> simp only [memcpy] <;> split_ifs <;>
      first | rfl | (exfalso; omega) | (congr 1; omega)
  · intro hu j hj
    subst hu
    cases disks <;> simp only [memcpy] <;> split_ifs <;>
      first | rfl | (exfalso; omega)
  · intro i h1 h2
    cases upper <;> cases disks <;> simp only [memcpy] <;> split_ifs <;>
      first | rfl | (exfalso; omega)
  · cases upper <;> cases disks <;> rfl
  · cases upper <;> cases disks <;> rfl
  · cases upper <;> cases disks <;> rfl
  · intro d hd c
    subst hd
    rw [List.enum, ← disk_reqs_eq_enum d c conf 0 hport]
    cases upper <;> simp [set_disk_alerts_eq]
  · intro d hd i hi
    subst hd
    have hp := hport _ (List.get_mem conf i hi)
    refine ⟨disk_reqs d (disk_led (conf.get ⟨i, hi⟩).port_no) conf 0, ?_, ?_⟩
    · rw [← disk_led_eq _ hp.1 hp.2]
      cases upper <;> simp [set_disk_alerts_eq]
    · have := disk_reqs_mem d conf 0 i hi
      simpa [alert_req] using this
  · intro d hd hnd i hi
    subst hd
    have hp := hport _ (List.get_mem conf i hi)
    have hs := disk_reqs_single d conf 0 i hi hport hnd
    rw [disk_led_eq _ hp.1 hp.2, Nat.zero_add] at hs
    have hc : (alert_req (d i)) = (if d i ≠ 0 then AlertReq.set else AlertReq.clr) := rfl
    rw [← hc, ← hs]
    cases upper <;> simp [set_disk_alerts_eq]
  · intro hd
    subst hd
    cases upper <;> rfl

/-- Witness of C7: a call with upper text and per-disk results (disk 0 failed,
disk 1 healthy) on the sample record and the sample disk table: LED cell 0
received one set request, LED cell 1 one clear request, LED cell 2 nothing. -/
theorem fcd_lib_set_mon_status2_post_witness :
    ∃ m, fcd_lib_set_mon_status2 sample_conf 0 0 sample_monitor (some (fun _ => 65))
        (fun _ => 66) 1 0 (some (fun i => if i = 0 then 1 else 0)) 3 = some m ∧
      m.buf 45 = 66 ∧ m.buf 5 = 65 ∧ m.buf 0 = 32 ∧ m.new_pwm_flags = 3 ∧
      m.sys_warn = [AlertReq.set] ∧ m.sys_fail = [AlertReq.clr] ∧
      m.disk_alerts 0 = [AlertReq.set] ∧ m.disk_alerts 1 = [AlertReq.clr] ∧
      m.disk_alerts 2 = [] := by
  obtain ⟨m, hm, hlower, hupper, -, hrest, hpwm, hwarn, hfail, hled, -⟩ :=
    fcd_lib_set_mon_status2_post sample_conf 0 0 sample_monitor (some (fun _ => 65))
      (fun _ => 66) 1 0 (some (fun i => if i = 0 then 1 else 0)) 3 rfl rfl (by decide)
  exact ⟨m, hm, hlower 0 (by decide), hupper _ rfl 0 (by decide),
    hrest 0 (by decide) (by decide), hpwm, hwarn, hfail,
    (hled _ rfl 0).trans (by decide), (hled _ rfl 1).trans (by decide),
    (hled _ rfl 2).trans (by decide)⟩

theorem publish_eq (conf : List fcd_raid_disk) (mon : fcd_monitor) (a : StatusArgs) :
    publish conf mon a = some
      { buf := memcpy (match a.upper with
            | some u => memcpy mon.buf 5 u 20
            | none => mon.buf) 45 a.lower 20
        sys_warn := mon.sys_warn ++ [alert_req a.warn]
        sys_fail := mon.sys_fail ++ [alert_req a.fail]
        disk_alerts := match a.disks with
          | some d => set_disk_alerts d conf 0 mon.disk_alerts
          | none => mon.disk_alerts
        new_pwm_flags := a.pwm_flags } := by
  unfold publish fcd_lib_set_mon_status2 fcd_alert_update
  cases a.upper <;> cases a.disks <;> simp

theorem disk_reqs_eq_nil_iff (d d' : Nat → Int) (c : Nat) (ds : List fcd_raid_disk)
    (i j : Nat) : disk_reqs d c ds i = [] ↔ disk_reqs d' c ds j = [] := by
  induction ds generalizing i j with
  | nil => simp [disk_reqs]
  | cons x xs ih =>
    simp only [disk_reqs, List.append_eq_nil]
    rw [ih (i + 1) (j + 1)]
    by_cases h : disk_led x.port_no = c <;> simp [h]

/-- Claim C8, amended: when the second call supplies the upper text whenever
the first did, and the per-disk results whenever the first did, the record
observed after publishing `a` then `b` (every display byte, the pending PWM
flags, the last request submitted to the warn cell, to the fail cell and to
each LED cell) is what publishing `b` alone leaves, and carries the values of
`b`. -/
theorem publish_twice_second_wins (conf : List fcd_raid_disk) (r : fcd_monitor) (a b : StatusArgs)
    (hupper : a.upper ≠ none → b.upper ≠ none) (hdisks : a.disks ≠ none → b.disks ≠ none) :
    ∃ m1 m2 m, publish conf r a = some m1 ∧ publish conf m1 b = some m2 ∧
      publish conf r b = some m ∧
      (∀ i, m2.buf i = m.buf i) ∧
      m2.new_pwm_flags = m.new_pwm_flags ∧
      m2.sys_warn.getLast? = m.sys_warn.getLast? ∧
      m2.sys_fail.getLast? = m.sys_fail.getLast? ∧
      (∀ c, (m2.disk_alerts c).getLast? = (m.disk_alerts c).getLast?) ∧
      (∀ i, 5 ≤ i → i < 25 → ∀ u, b.upper = some u → m2.buf i = u (i - 5)) ∧
      (∀ i, 45 ≤ i → i < 65 → m2.buf i = b.lower (i - 45)) ∧
      m2.new_pwm_flags = b.pwm_flags ∧
      m2.sys_warn.getLast? = some (alert_req b.warn) ∧
      m2.sys_fail.getLast? = some (alert_req b.fail) := by
  refine ⟨_, _, _, publish_eq conf r a, publish_eq conf _ b, publish_eq conf r b,
    ?_, rfl, ?_, ?_, ?_, ?_, ?_, rfl, ?_, ?_⟩
  · intro i
    rcases hb : b.upper with _ | ub
    · have ha : a.upper = none := by
        by_contra h
        exact hupper h hb
      simp only [ha, memcpy]
      split_ifs <;> rfl
    · rcases a.upper with _ | ua <;> simp only [memcpy] <;> split_ifs <;> rfl
  · simp
  · simp
  · intro c
    rcases hb : b.disks with _ | db
    · have ha : a.disks = none := by
        by_contra h
        exact hdisks h hb
      simp only [ha]
    · rcases a.disks with _ | da
      · rfl
      · simp only [set_disk_alerts_eq, List.getLast?_append]
        by_cases hnil : disk_reqs db c conf 0 = []
        · rw [(disk_reqs_eq_nil_iff da db c conf 0 0).mpr hnil, hnil]
          simp
        · obtain ⟨x, hx⟩ := Option.isSome_iff_exists.mp
            (by rw [List.getLast?_isSome]; exact hnil :
              (disk_reqs db c conf 0).getLast?.isSome = true)
          rw [hx]
          simp
  · intro i h1 h2 u hu
    simp only [hu, memcpy]
    split_ifs <;> first | rfl | (exfalso; omega)
  · intro i h1 h2
    simp only [memcpy]
    split_ifs <;> first | rfl | (exfalso; omega)
  · simp
  · simp

/-- Claim C8 as stated fails: on the sample record, publishing with upper text
and per-disk results and then publishing without them leaves the first call's
upper text (byte 5 is 65) and the first call's request in LED cell 0, whereas
the second call alone leaves the original byte 32 and no request. -/
theorem publish_twice_keeps_first_upper :
    ((publish sample_conf sample_monitor sample_args_full).bind
        (fun m => publish sample_conf m sample_args_lower)).map
        (fun m => (m.buf 5, (m.disk_alerts 0).getLast?))
      = some (65, some AlertReq.set) ∧
    (publish sample_conf sample_monitor sample_args_lower).map
        (fun m => (m.buf 5, (m.disk_alerts 0).getLast?))
      = some (32, none) := by
  constructor <;> rfl

/-- Witness of the amended C8: two calls that both supply upper text and
per-disk results. -/
theorem publish_twice_second_wins_witness :
    ∃ m1 m2 m, publish sample_conf sample_monitor sample_args_full = some m1 ∧
      publish sample_conf m1 sample_args_other = some m2 ∧
      publish sample_conf sample_monitor sample_args_other = some m ∧
      (∀ i, m2.buf i = m.buf i) ∧
      (∀ c, (m2.disk_alerts c).getLast? = (m.disk_alerts c).getLast?) := by
  obtain ⟨m1, m2, m, h1, h2, h3, hbuf, -, -, -, hled, -⟩ :=
    publish_twice_second_wins sample_conf sample_monitor sample_args_full sample_args_other
      (fun _ h => Option.noConfusion h) (fun _ h => Option.noConfusion h)
  exact ⟨m1, m2, m, h1, h2, h3, hbuf, hled⟩

/-- Claim C9: after `fcd_lib_fail` (the mutex operations succeeding), whatever
the record held, the fail cell has received a set request, display bytes 45..64
are the 20 characters of "ERROR: NOT AVAILABLE" (none of them a terminator),
and every other display byte, the warn cell, the disk LED cells and the pending
PWM flags are unchanged. -/
theorem fcd_lib_fail_post (lock_ret unlock_ret : Int) (mon : fcd_monitor)
    (hlock : lock_ret = 0) (hunlock : unlock_ret = 0) :
    ∃ m, fcd_lib_fail lock_ret unlock_ret mon = some m ∧
      m.sys_fail = mon.sys_fail ++ [AlertReq.set] ∧
      (List.range 20).map (fun j => m.buf (45 + j))
        = "ERROR: NOT AVAILABLE".toList.map Char.toNat ∧
      (∀ j, j < 20 → m.buf (45 + j) ≠ 0) ∧
      (∀ i, ¬ (45 ≤ i ∧ i < 65) → m.buf i = mon.buf i) ∧
      m.sys_warn = mon.sys_warn ∧
      m.disk_alerts = mon.disk_alerts ∧
      m.new_pwm_flags = mon.new_pwm_flags := by
  subst hlock hunlock
  refine ⟨{ mon with
      sys_fail := fcd_alert_update .set mon.sys_fail
      buf := memcpy mon.buf 45 (fun i => disabled_msg.getD i 0) 20 },
    by simp [fcd_lib_fail], rfl, ?_, ?_, ?_, rfl, rfl, rfl⟩
  · rfl
  · intro j hj
    have h : 45 ≤ 45 + j ∧ 45 + j < 45 + 20 := by omega
    simp only [memcpy, if_pos h, Nat.add_sub_cancel_left]
    interval_cases j <;> simp [disabled_msg]
  · intro i hi
    simp only [memcpy]
    rw [if_neg hi]


/-- Witness of C9: disabling the sample monitor. -/
theorem fcd_lib_fail_post_witness :
    ∃ m, fcd_lib_fail 0 0 sample_monitor = some m ∧
      m.sys_fail = sample_monitor.sys_fail ++ [AlertReq.set] ∧
      (List.range 20).map (fun j => m.buf (45 + j))
        = "ERROR: NOT AVAILABLE".toList.map Char.toNat := by
  obtain ⟨m, hm, hfail, hmsg, -⟩ := fcd_lib_fail_post 0 0 sample_monitor rfl rfl
  exact ⟨m, hm, hfail, hmsg⟩

/-! ## Disk table -/

theorem fcd_lib_disk_index_loop_none (c : Nat) (n : Int) (ds : List fcd_raid_disk) (i : Nat)
    (h : ∀ d ∈ ds, c ≠ disk_letter d.name) : fcd_lib_disk_index_loop c n ds i = -1 := by
  induction ds generalizing i with
  | nil => rfl
  | cons d ds ih =>
    simp only [fcd_lib_disk_index_loop]
    have hd : c ≠ disk_letter d.name := h d (List.mem_cons_self _ _)
    rw [if_neg hd, ih (i + 1) (fun e he => h e (List.mem_cons_of_mem _ he))]
    simp

theorem fcd_lib_disk_index_loop_found (n : Int) (ds : List fcd_raid_disk) (i j : Nat)
    (hj : j < ds.length) (hn : ((i + ds.length : Nat) : Int) ≤ n)
    (hnd : (ds.map (fun d => disk_letter d.name)).Nodup) :
    fcd_lib_disk_index_loop (disk_letter (ds.get ⟨j, hj⟩).name) n ds i = ((i + j : Nat) : Int) := by
  induction ds generalizing i j with
  | nil => simp at hj
  | cons d ds ih =>
    have hi : (i : Int) < n := by
      simp only [List.length_cons] at hn
      omega
    cases j with
    | zero => simp [fcd_lib_disk_index_loop, hi]
    | succ j =>
      simp only [List.map_cons, List.nodup_cons] at hnd
      have hj' : j < ds.length := by simpa using hj
      have hne : disk_letter (ds.get ⟨j, hj'⟩).name ≠ disk_letter d.name := by
        intro he
        apply hnd.1
        rw [← he]
        exact List.mem_map.mpr ⟨_, List.get_mem ds j hj', rfl⟩
      simp only [fcd_lib_disk_index_loop, List.get_cons_succ, if_pos hi, if_neg hne]
      rw [ih (i + 1) j hj' (by simp only [List.length_cons] at hn; omega) hnd.2]
      congr 1
      omega

/-- Claim C10: for a disk table whose suffix letters are pairwise distinct (and
whose length fits the `int` of the loop, as every table of at most
`FCD_MAX_DISK_COUNT` entries does), `fcd_lib_disk_index` on the suffix letter
of disk `i` returns `i`, and on a character that is the suffix letter of no
configured disk it returns -1. -/
theorem fcd_lib_disk_index_lookup (conf : List fcd_raid_disk)
    (hnd : (conf.map (fun d => disk_letter d.name)).Nodup) (hlen : conf.length < 2 ^ 31) :
    (∀ (i : Nat) (hi : i < conf.length),
      fcd_lib_disk_index conf (disk_letter (conf.get ⟨i, hi⟩).name) = (i : Int)) ∧
    (∀ c, (∀ d ∈ conf, c ≠ disk_letter d.name) → fcd_lib_disk_index conf c = -1) := by
  have hcount : int_of_unsigned conf.length = (conf.length : Int) := by
    unfold int_of_unsigned
    have h1 : conf.length % 2 ^ 32 = conf.length := Nat.mod_eq_of_lt (by omega)
    rw [h1, if_pos hlen]
  constructor
  · intro i hi
    unfold fcd_lib_disk_index
    rw [fcd_lib_disk_index_loop_found _ conf 0 i hi (by rw [hcount]; simp) hnd]
    simp
  · intro c hc
    exact fcd_lib_disk_index_loop_none c _ conf 0 hc

/-- Witness of C10: in the sample table the letter `c` (99) is disk 1 and the
letter `z` (122) is not configured. -/
theorem fcd_lib_disk_index_lookup_witness :
    fcd_lib_disk_index sample_conf 99 = 1 ∧ fcd_lib_disk_index sample_conf 122 = -1 := by
  obtain ⟨hfound, hnone⟩ := fcd_lib_disk_index_lookup sample_conf (by decide) (by decide)
  exact ⟨hfound 1 (by decide), hnone 122 (by decide)⟩

theorem raiddisks_scan_nodup (earlier list : List (List Nat))
    (h : raiddisks_scan earlier list = true) :
    (list.map disk_letter).Nodup ∧
      (∀ v ∈ list, raiddisk_invalid v = false) ∧
      ∀ v ∈ list, ∀ e ∈ earlier, disk_letter v ≠ disk_letter e := by
  induction list generalizing earlier with
  | nil => simp
  | cons v rest ih =>
    simp only [raiddisks_scan] at h
    split_ifs at h with h1 h2
    have h1' : raiddisk_invalid v = false := by simpa using h1
    obtain ⟨hnd, hval, hdis⟩ := ih (earlier ++ [v]) h
    have h2' : ∀ e ∈ earlier, disk_letter v ≠ disk_letter e := by
      simpa using h2
    refine ⟨?_, ?_, ?_⟩
    · simp only [List.map_cons, List.nodup_cons]
      refine ⟨?_, hnd⟩
      intro hmem
      obtain ⟨w, hw, hwe⟩ := List.mem_map.mp hmem
      exact hdis w hw v (by simp) hwe
    · intro w hw
      rcases List.mem_cons.mp hw with rfl | hw
      · exact h1'
      · exact hval w hw
    · intro w hw e he
      rcases List.mem_cons.mp hw with rfl | hw
      · exact h2' e he
      · exact hdis w hw e (by simp [he])

theorem disk_letter_stored (v : List Nat) (h : raiddisk_invalid v = false) :
    disk_letter ((v ++ [0]).take FCD_DISK_NAME_SIZE) = disk_letter v ∧
      97 ≤ disk_letter v ∧ disk_letter v ≤ 122 ∧
      (v ++ [0]).take FCD_DISK_NAME_SIZE
        = [47, 100, 101, 118, 47, 115, 100, disk_letter v, 0] := by
  simp only [raiddisk_invalid, FCD_DISK_NAME_SIZE, Bool.or_eq_false_iff, bne_eq_false_iff_eq,
    decide_eq_false_iff_not, not_lt] at h
  obtain ⟨⟨⟨hlen, hpre⟩, hlo⟩, hhi⟩ := h
  match v, hlen with
  | [a, b, c, d, e, f, g, x], _ =>
    simp only [List.take, List.cons.injEq, and_true] at hpre
    obtain ⟨rfl, rfl, rfl, rfl, rfl, rfl, rfl⟩ := hpre
    simp only [disk_letter, FCD_DISK_NAME_SIZE] at *
    simp at hlo hhi ⊢
    omega

theorem fcd_conf_raiddisks_cb_accepts (max_count : Nat) (list names : List (List Nat))
    (h : fcd_conf_raiddisks_cb max_count list = some names) :
    1 ≤ names.length ∧ names.length ≤ max_count ∧
      (names.map disk_letter).Nodup ∧
      ∀ n ∈ names, ∃ x, 97 ≤ x ∧ x ≤ 122 ∧ n = [47, 100, 101, 118, 47, 115, 100, x, 0] := by
  unfold fcd_conf_raiddisks_cb at h
  split_ifs at h with h1 h2
  simp only [Option.some.injEq] at h
  subst h
  have hs : raiddisks_scan [] list = true := by simpa using h2
  obtain ⟨hnd, hval, -⟩ := raiddisks_scan_nodup [] list hs
  refine ⟨by simp only [List.length_map]; omega, by simp only [List.length_map]; omega, ?_, ?_⟩
  · rw [List.map_map]
    have : list.map (disk_letter ∘ fun v => (v ++ [0]).take FCD_DISK_NAME_SIZE)
        = list.map disk_letter := by
      apply List.map_congr_left
      intro v hv
      exact (disk_letter_stored v (hval v hv)).1
    rw [this]
    exact hnd
  · intro n hn
    obtain ⟨v, hv, rfl⟩ := List.mem_map.mp hn
    obtain ⟨-, h97, h122, heq⟩ := disk_letter_stored v (hval v hv)
    exact ⟨disk_letter v, h97, h122, heq⟩

/-! ## Retry policy of the timed read -/

theorem fcd_lib_remaining_none (d : Timespec) : fcd_lib_remaining none d = none := rfl

theorem fcd_lib_read_loop_none_iff (deadline : Timespec) (count : Nat) (steps : List Step)
    (src : List Nat) (timeout : Timespec) (waits : List Timespec) :
    fcd_lib_read_loop deadline count steps src timeout waits = none
      ↔ ∀ st ∈ steps, st.retries = true := by
  induction steps generalizing timeout waits with
  | nil => simp [fcd_lib_read_loop]
  | cons s steps ih =>
    simp only [List.mem_cons, forall_eq_or_imp]
    rcases hf : s.exit_flag with _ | _
    · rcases hc : s.clock with _ | now
      · simp [fcd_lib_read_loop, Step.retries, hf, hc, fcd_lib_remaining_none]
      · obtain ⟨r1, hr1⟩ := fcd_lib_remaining_some now deadline
        rcases hp : s.poll with _ | _ | _ | _
        · simp [fcd_lib_read_loop, Step.retries, hf, hc, hr1, hp, ih]
        · simp [fcd_lib_read_loop, Step.retries, hf, hc, hr1, hp]
        · simp [fcd_lib_read_loop, Step.retries, hf, hc, hr1, hp]
        · rcases hrd : s.read with _ | _ | more
          · simp [fcd_lib_read_loop, Step.retries, hf, hc, hr1, hp, hrd, ih]
          · simp [fcd_lib_read_loop, Step.retries, hf, hc, hr1, hp, hrd]
          · rcases hca : s.clock_after with _ | now2
            · simp [fcd_lib_read_loop, Step.retries, hf, hc, hr1, hp, hrd, hca,
                fcd_lib_remaining_none]
            · obtain ⟨r2, hr2⟩ := fcd_lib_remaining_some now2 deadline
              simp [fcd_lib_read_loop, Step.retries, hf, hc, hr1, hp, hrd, hca, hr2]
    · simp [fcd_lib_read_loop, Step.retries, hf]

theorem fcd_lib_read_loop_returns (deadline : Timespec) (count : Nat) (steps : List Step)
    (src : List Nat) (timeout : Timespec) (waits : List Timespec) (o : ReadOut)
    (h : fcd_lib_read_loop deadline count steps src timeout waits = some o) :
    ∃ pre last post, steps = pre ++ last :: post ∧ (∀ st ∈ pre, st.retries = true) ∧
      last.retries = false ∧
      o.waits.map some = waits.map some ++
        (if last.exit_flag = true ∨ last.clock = none then pre else pre ++ [last]).map
          (fun st => fcd_lib_remaining st.clock deadline) ∧
      ((last.exit_flag = true ∧ o.ret = -3) ∨
       (last.exit_flag = false ∧ last.clock = none ∧ o.ret = -1) ∨
       (last.exit_flag = false ∧ last.clock ≠ none ∧ last.poll = .error ∧ o.ret = -1) ∨
       (last.exit_flag = false ∧ last.clock ≠ none ∧ last.poll = .expired ∧ o.ret = -2) ∨
       (last.exit_flag = false ∧ last.clock ≠ none ∧ last.poll = .ready ∧
         last.read = .error ∧ o.ret = -1) ∨
       (last.exit_flag = false ∧ last.clock ≠ none ∧ last.poll = .ready ∧
         (∃ m, last.read = .deliver m) ∧ last.clock_after = none ∧ o.ret = -1) ∨
       (last.exit_flag = false ∧ last.clock ≠ none ∧ last.poll = .ready ∧
         (∃ m, last.read = .deliver m) ∧ last.clock_after ≠ none ∧ 0 ≤ o.ret)) := by
  induction steps generalizing timeout waits with
  | nil => simp [fcd_lib_read_loop] at h
  | cons s steps ih =>
    rcases hf : s.exit_flag with _ | _
    · rcases hc : s.clock with _ | now
      · simp only [fcd_lib_read_loop, hf, hc, fcd_lib_remaining_none] at h
        simp only [Bool.false_eq_true, if_false, Option.some.injEq] at h
        subst h
        exact ⟨[], s, steps, rfl, by simp, by simp [Step.retries, hc], by simp [hc],
          Or.inr (Or.inl ⟨hf, hc, rfl⟩)⟩
      · obtain ⟨r1, hr1⟩ := fcd_lib_remaining_some now deadline
        have hcne : s.clock ≠ none := by simp [hc]
        have hr1' : fcd_lib_remaining s.clock deadline = some r1 := by rw [hc, hr1]
        simp only [fcd_lib_read_loop, hf, hc, hr1, Bool.false_eq_true, if_false] at h
        rcases hp : s.poll with _ | _ | _ | _
        · simp only [hp] at h
          obtain ⟨pre, last, post, hsteps, hpre, hlast, hw, hret⟩ := ih r1 (waits ++ [r1]) h
          have hs : s.retries = true := by simp [Step.retries, hf, hc, hp]
          refine ⟨s :: pre, last, post, by rw [hsteps]; rfl, ?_, hlast, ?_, hret⟩
          · intro st hst
            rcases List.mem_cons.mp hst with rfl | hst
            · exact hs
            · exact hpre st hst
          · rw [hw]
            split_ifs <;> simp [hr1']
        · simp only [hp, Option.some.injEq] at h
          subst h
          exact ⟨[], s, steps, rfl, by simp, by simp [Step.retries, hp],
            by simp [hf, hc, hr1],
            Or.inr (Or.inr (Or.inl ⟨hf, hcne, hp, rfl⟩))⟩
        · simp only [hp, Option.some.injEq] at h
          subst h
          exact ⟨[], s, steps, rfl, by simp, by simp [Step.retries, hp],
            by simp [hf, hc, hr1],
            Or.inr (Or.inr (Or.inr (Or.inl ⟨hf, hcne, hp, rfl⟩)))⟩
        · rcases hrd : s.read with _ | _ | more
          · simp only [hp, hrd] at h
            obtain ⟨pre, last, post, hsteps, hpre, hlast, hw, hret⟩ := ih r1 (waits ++ [r1]) h
            have hs : s.retries = true := by simp [Step.retries, hf, hc, hp, hrd]
            refine ⟨s :: pre, last, post, by rw [hsteps]; rfl, ?_, hlast, ?_, hret⟩
            · intro st hst
              rcases List.mem_cons.mp hst with rfl | hst
              · exact hs
              · exact hpre st hst
            · rw [hw]
              split_ifs <;> simp [hr1']
          · simp only [hp, hrd, Option.some.injEq] at h
            subst h
            exact ⟨[], s, steps, rfl, by simp, by simp [Step.retries, hp, hrd],
              by simp [hf, hc, hr1],
              Or.inr (Or.inr (Or.inr (Or.inr (Or.inl ⟨hf, hcne, hp, hrd, rfl⟩))))⟩
          · rcases hca : s.clock_after with _ | now2
            · simp only [hp, hrd, hca, fcd_lib_remaining_none, Option.some.injEq] at h
              subst h
              exact ⟨[], s, steps, rfl, by simp, by simp [Step.retries, hp, hrd],
                by simp [hf, hc, hr1],
                Or.inr (Or.inr (Or.inr (Or.inr (Or.inr (Or.inl
                  ⟨hf, hcne, hp, ⟨more, hrd⟩, hca, rfl⟩)))))⟩
            · obtain ⟨r2, hr2⟩ := fcd_lib_remaining_some now2 deadline
              simp only [hp, hrd, hca, hr2, Option.some.injEq] at h
              subst h
              exact ⟨[], s, steps, rfl, by simp, by simp [Step.retries, hp, hrd],
                by simp [hf, hc, hr1],
                Or.inr (Or.inr (Or.inr (Or.inr (Or.inr (Or.inr
                  ⟨hf, hcne, hp, ⟨more, hrd⟩, by simp [hca], Int.natCast_nonneg _⟩)))))⟩
    · simp only [fcd_lib_read_loop, hf, if_true, Option.some.injEq] at h
      subst h
      exact ⟨[], s, steps, rfl, by simp, by simp [Step.retries, hf], by simp [hf],
        Or.inl ⟨hf, rfl⟩⟩

/-- Claim C11: for every script of clock, `ppoll` and `read` outcomes,
`fcd_lib_read` does not return as long as every iteration is an interrupted
wait (`EINTR`) or a would-block read (`EAGAIN`, `EWOULDBLOCK`), so neither
surfaces as a return value.  When it returns, either the clock failed at entry
(-1, no wait issued), or the iterations run are retries followed by one
iteration `last` that is not a retry: the exit flag is tested again in every
iteration (a set flag gives -3), and every wait issued, in the retries and in
`last`, got the remaining time computed from the clock reading of that
iteration and the one deadline computed at entry.  The result is -1 only when
the clock fails, `ppoll` fails with another error, or `read` fails with
another error, and -2 only when `ppoll` reported expiry. -/
theorem fcd_lib_read_retry_policy (s : ReadScript) (src : List Nat) (count : Nat)
    (timeout : Timespec) :
    (fcd_lib_read s src count timeout = none
      ↔ s.clock ≠ none ∧ ∀ st ∈ s.steps, st.retries = true) ∧
    ∀ o, fcd_lib_read s src count timeout = some o →
      (s.clock = none ∧ o.ret = -1 ∧ o.waits = []) ∨
      ∃ deadline pre last post,
        fcd_lib_deadline s.clock timeout = some deadline ∧
        s.steps = pre ++ last :: post ∧
        (∀ st ∈ pre, st.retries = true) ∧
        last.retries = false ∧
        (last.exit_flag = false → last.clock ≠ none →
          last.poll ≠ .eintr ∧ ¬ (last.poll = .ready ∧ last.read = .eagain)) ∧
        o.waits.map some
          = (if last.exit_flag = true ∨ last.clock = none then pre else pre ++ [last]).map
              (fun st => fcd_lib_remaining st.clock deadline) ∧
        (last.exit_flag = true ↔ o.ret = -3) ∧
        (o.ret = -1 → last.exit_flag = false ∧
          (last.clock = none ∨
            (last.clock ≠ none ∧
              (last.poll = .error ∨ (last.poll = .ready ∧ last.read = .error) ∨
                (last.poll = .ready ∧ (∃ m, last.read = .deliver m) ∧
                  last.clock_after = none))))) ∧
        (o.ret = -2 → last.exit_flag = false ∧ last.clock ≠ none ∧ last.poll = .expired) ∧
        (0 ≤ o.ret → last.exit_flag = false ∧ last.clock ≠ none ∧ last.poll = .ready ∧
          (∃ m, last.read = .deliver m) ∧ last.clock_after ≠ none) ∧
        (0 ≤ o.ret ∨ o.ret = -1 ∨ o.ret = -2 ∨ o.ret = -3) := by
  constructor
  · rcases hc : s.clock with _ | now
    · simp [fcd_lib_read, fcd_lib_deadline, hc]
    · obtain ⟨d, hd⟩ : ∃ d, fcd_lib_deadline (some now) timeout = some d := by
        simp only [fcd_lib_deadline]
        split_ifs <;> exact ⟨_, rfl⟩
      simp only [fcd_lib_read, hc, hd, fcd_lib_read_loop_none_iff]
      simp
  · intro o h
    rcases hc : s.clock with _ | now
    · left
      simp only [fcd_lib_read, hc, fcd_lib_deadline, Option.some.injEq] at h
      subst h
      exact ⟨rfl, rfl, rfl⟩
    · right
      obtain ⟨d, hd⟩ : ∃ d, fcd_lib_deadline (some now) timeout = some d := by
        simp only [fcd_lib_deadline]
        split_ifs <;> exact ⟨_, rfl⟩
      simp only [fcd_lib_read, hc, hd] at h
      obtain ⟨pre, last, post, hsteps, hpre, hlast, hw, hret⟩ :=
        fcd_lib_read_loop_returns d count s.steps src timeout [] o h
      refine ⟨d, pre, last, post, hd, hsteps, hpre, hlast, ?_, by simpa using hw,
        ?_, ?_, ?_, ?_, ?_⟩
      · intro hf hcl
        obtain ⟨c, hcl'⟩ := Option.ne_none_iff_exists'.mp hcl
        simp only [Step.retries, hf, hcl', Bool.not_false, Option.isSome_some, Bool.and_self,
          Bool.true_and, Bool.or_eq_false_iff, beq_eq_false_iff_ne, ne_eq,
          Bool.and_eq_false_imp, beq_iff_eq] at hlast
        exact ⟨hlast.1, fun hh => hlast.2 hh.1 hh.2⟩
      · rcases hret with h1 | h1 | h1 | h1 | h1 | h1 | h1
        · exact ⟨fun _ => h1.2, fun _ => h1.1⟩
        · exact ⟨fun hh => by simp [h1.1] at hh, fun hh => by omega⟩
        · exact ⟨fun hh => by simp [h1.1] at hh, fun hh => by omega⟩
        · exact ⟨fun hh => by simp [h1.1] at hh, fun hh => by omega⟩
        · exact ⟨fun hh => by simp [h1.1] at hh, fun hh => by omega⟩
        · exact ⟨fun hh => by simp [h1.1] at hh, fun hh => by omega⟩
        · exact ⟨fun hh => by simp [h1.1] at hh, fun hh => by omega⟩
      · intro hm1
        rcases hret with h1 | h1 | h1 | h1 | h1 | h1 | h1
        · omega
        · exact ⟨h1.1, Or.inl h1.2.1⟩
        · exact ⟨h1.1, Or.inr ⟨h1.2.1, Or.inl h1.2.2.1⟩⟩
        · omega
        · exact ⟨h1.1, Or.inr ⟨h1.2.1, Or.inr (Or.inl ⟨h1.2.2.1, h1.2.2.2.1⟩)⟩⟩
        · exact ⟨h1.1, Or.inr ⟨h1.2.1,
            Or.inr (Or.inr ⟨h1.2.2.1, h1.2.2.2.1, h1.2.2.2.2.1⟩)⟩⟩
        · omega
      · intro hm2
        rcases hret with h1 | h1 | h1 | h1 | h1 | h1 | h1
        · omega
        · omega
        · omega
        · exact ⟨h1.1, h1.2.1, h1.2.2.1⟩
        · omega
        · omega
        · omega
      · intro hnn
        rcases hret with h1 | h1 | h1 | h1 | h1 | h1 | h1
        · omega
        · omega
        · omega
        · omega
        · omega
        · omega
        · exact ⟨h1.1, h1.2.1, h1.2.2.1, h1.2.2.2.1, h1.2.2.2.2.1⟩
      · rcases hret with h1 | h1 | h1 | h1 | h1 | h1 | h1 <;> omega

/-- Witness of C11: an interrupted wait at 101 s and a would-block read at
102 s are retried; the waits get 4 s, 3 s and 2 s of the 5 s budget set at
100 s, and the expiry reported by the third wait gives -2. -/
theorem fcd_lib_read_retry_policy_witness :
    ∃ o, fcd_lib_read retry_script [1, 2, 3] 10 ⟨5, 0⟩ = some o ∧ o.ret = -2 ∧
      o.waits = [⟨4, 0⟩, ⟨3, 0⟩, ⟨2, 0⟩] ∧
      ∃ pre last post, retry_script.steps = pre ++ last :: post ∧
        (∀ st ∈ pre, st.retries = true) ∧ last.poll = .expired := by
  obtain ⟨o, ho, hret, hwaits⟩ :
      ∃ o, fcd_lib_read retry_script [1, 2, 3] 10 ⟨5, 0⟩ = some o ∧ o.ret = -2 ∧
        o.waits = [⟨4, 0⟩, ⟨3, 0⟩, ⟨2, 0⟩] :=
    ⟨_, rfl, rfl, rfl⟩
  refine ⟨o, ho, hret, hwaits, ?_⟩
  rcases (fcd_lib_read_retry_policy retry_script [1, 2, 3] 10 ⟨5, 0⟩).2 o ho with
    h | ⟨d, pre, last, post, -, hsteps, hpre, -, -, -, -, -, hexp, -⟩
  · omega
  · exact ⟨pre, last, post, hsteps, hpre, (hexp hret).2.2⟩

end Freecusd
